import Mathlib

/-!
# Transition graph unpacking

A shallow embedding of `lib/pacemaker/pcmk_trans_unpack.c`: the builders
`unpack_action`, `unpack_synapse`, `unpack_graph`, the teardown
`destroy_graph` and the converter `convert_graph_action`.

* C pointers that may be NULL are `Option`s.
* `int` fields are `Int`; arithmetic on values that come from attribute text
  (`timeout += ...`, `call_id++`) is reduced to the 32-bit range with
  `int_wrap`. The two counters `num_synapses` and `num_actions` are only ever
  incremented once per unpacked element and are kept unreduced: they would
  need a document of 2^31 elements to leave the range.
* `calloc` is taken to succeed, and every field it leaves zeroed is zero.
* Library helpers whose code is not in this file are the fields of `Lib`.
-/

namespace TransUnpack

/-! ## Document reader -/

/-- An element of the parsed document: its name, its attributes in order and
its child nodes in document order (the nodes that `__xml_first_child` and
`__xml_next` walk through). -/
inductive XmlNode where
  | mk (name : String) (attrs : List (String × String)) (children : List XmlNode)
  deriving Repr

/-- Element name of a node. -/
def XmlNode.name : XmlNode → String
  | .mk n _ _ => n

/-- Attributes of a node, in order. -/
def XmlNode.attrs : XmlNode → List (String × String)
  | .mk _ a _ => a

/-- Children of a node, in document order. -/
def XmlNode.children : XmlNode → List XmlNode
  | .mk _ _ c => c

/-- Modelled from the spec: the macro `XML_ATTR_ID` is not under src/; the
spec's schema names the identifying attribute `id`. -/
def XML_ATTR_ID : String := "id"

/-- Modelled from the spec: the macro `XML_CIB_ATTR_PRIORITY` is not under
src/; the schema's optional synapse attribute is `priority`. -/
def XML_CIB_ATTR_PRIORITY : String := "priority"

/-- Modelled from the spec: the macro `XML_GRAPH_TAG_RSC_OP` is not under
src/; the spec names the element `rsc_op`. -/
def XML_GRAPH_TAG_RSC_OP : String := "rsc_op"

/-- Modelled from the spec: the macro `XML_GRAPH_TAG_PSEUDO_EVENT` is not
under src/; the spec names the element `pseudo_event`. -/
def XML_GRAPH_TAG_PSEUDO_EVENT : String := "pseudo_event"

/-- Modelled from the spec: the macro `XML_GRAPH_TAG_CRM_EVENT` is not under
src/; the spec names the element `crm_event`. -/
def XML_GRAPH_TAG_CRM_EVENT : String := "crm_event"

/-- Modelled from the spec: the macro `XML_CIB_TAG_RESOURCE` is not under
src/; the schema's action resource element is `primitive`. -/
def XML_CIB_TAG_RESOURCE : String := "primitive"

/-- Modelled from the spec: the macro `XML_LRM_ATTR_TASK` is not under src/;
the schema's task attribute on an action element is `operation`. -/
def XML_LRM_ATTR_TASK : String := "operation"

/-- Modelled from the spec: the macro `XML_LRM_ATTR_CALLID` is not under
src/; the spec names the history attribute `call-id`. -/
def XML_LRM_ATTR_CALLID : String := "call-id"

/-- Modelled from the spec: `crm_element_value` is not under src/; it is the
document reader's attribute lookup, the value of the first attribute of that
name, or NULL. -/
def crm_element_value (data : XmlNode) (name : String) : Option String :=
  data.attrs.lookup name

/-- Modelled from the spec: `crm_element_name` is not under src/; it is the
document reader's element name lookup. -/
def crm_element_name (data : XmlNode) : String :=
  data.name

/-- The macro `ID(x)`: the value of the `id` attribute. -/
def ID (x : XmlNode) : Option String :=
  crm_element_value x XML_ATTR_ID

/-- Modelled from the spec: `copy_xml` is not under src/; it returns an
independent deep copy of the subtree, which as a value is the subtree. -/
def copy_xml (x : XmlNode) : XmlNode :=
  x

/-- Modelled from the spec: `crm_str_eq` is not under src/; the calls in
this file pass TRUE for its last argument and the spec speaks of a child
"named" `action_set`, `inputs` or `synapse`: equality of the two names. -/
def crm_str_eq (a b : String) (_use_case : Bool) : Bool :=
  a == b

/-- Modelled from the spec: `first_named_child` is not under src/; it is the
first child element of the parent that has the given name, or NULL. -/
def first_named_child (parent : Option XmlNode) (name : String) : Option XmlNode :=
  match parent with
  | none => none
  | some p => p.children.find? (fun c => c.name == name)

/-! ## Parameter tables -/

/-- A `GHashTable` from strings to strings: its entries, keys unique when
built with `g_hash_table_insert`. -/
abbrev GHashTable := List (String × String)

/-- The table `g_hash_table_new_full` returns. -/
def g_hash_table_new_full : GHashTable := []

/-- The value stored under a key, or NULL. -/
def g_hash_table_lookup (t : GHashTable) (key : String) : Option String :=
  t.lookup key

/-- Insert a pair; a pair already stored under the key is replaced. -/
def g_hash_table_insert (t : GHashTable) (key value : String) : GHashTable :=
  if t.any (fun p => p.1 == key) then
    t.map (fun p => if p.1 == key then (p.1, value) else p)
  else
    t ++ [(key, value)]

/-! ## Machine integers -/

/-- Largest `int`. -/
def INT_MAX : Int := 2147483647

/-- Smallest `int`. -/
def INT_MIN : Int := -2147483648

/-- Reduce an integer to the range of a 32-bit `int`. -/
def int_wrap (x : Int) : Int :=
  (x + 2147483648) % 4294967296 - 2147483648

/-- Reduce an integer to the range of a 32-bit `guint`. -/
def guint_wrap (x : Int) : Int :=
  x % 4294967296

/-! ## Library helpers that are not in this file -/

/-- The helpers of the common library that the unpacking code calls and whose
code is not under src/. Each field is the helper as a function of its
arguments. -/
structure Lib where
  /-- The call `crm_parse_int(text, default_text)`, an `int`. -/
  crm_parse_int : Option String → Option String → Int
  /-- The call `crm_parse_ms(text)`. -/
  crm_parse_ms : String → Int
  /-- The call `crm_parse_interval_spec(text)`. -/
  crm_parse_interval_spec : String → Int
  /-- The call `crm_str_to_boolean(s, &ret)`: the value written to `ret`, or
  none when `ret` is left as it was. -/
  crm_str_to_boolean : String → Option Bool
  /-- The macro `safe_str_eq(a, b)` on two strings that are present. -/
  safe_str_eq : String → String → Bool
  /-- The call `xml2list(parent)`: the flattened parameters of an action. -/
  xml2list : XmlNode → GHashTable
  /-- The call `crm_element_value_int(data, name, &dest)`: the value written
  to `dest`, or none when `dest` is left as it was. -/
  crm_element_value_int : XmlNode → String → Option Int
  /-- The call `time(NULL)`. -/
  time : Int

/-! ## Data model -/

/-- A handle on a synapse: its position in the `synapses` list of the graph
that owns it. It stands for the `synapse_t *` back-pointer of an action. -/
abbrev SynapseRef := Nat

/-- The enum `action_type_e`. -/
inductive action_type_e where
  | action_type_pseudo
  | action_type_rsc
  | action_type_crm
  deriving DecidableEq, Repr

/-- The enum `transition_action`. -/
inductive transition_action where
  | tg_done
  | tg_stop
  | tg_restart
  | tg_shutdown
  deriving DecidableEq, Repr

/-- The struct `crm_action_timer_t`: the fields this file reads. -/
structure crm_action_timer_t where
  source_id : Nat
  timeout : Int
  deriving DecidableEq, Repr

/-- The struct `crm_action_t`. -/
structure crm_action_t where
  id : Int
  timeout : Int
  interval_ms : Int
  params : Option GHashTable
  type : action_type_e
  timer : Option crm_action_timer_t
  synapse : SynapseRef
  sent_update : Bool
  executed : Bool
  confirmed : Bool
  failed : Bool
  can_fail : Bool
  xml : Option XmlNode
  deriving Repr

/-- The struct `synapse_t`. -/
structure synapse_t where
  id : Int
  priority : Int
  ready : Bool
  failed : Bool
  executed : Bool
  confirmed : Bool
  actions : List crm_action_t
  inputs : List crm_action_t
  deriving Repr

/-- The struct `crm_graph_t`: the fields the spec's data model lists. -/
structure crm_graph_t where
  id : Int
  source : String
  abort_priority : Int
  completion_action : transition_action
  num_actions : Int
  num_synapses : Int
  batch_limit : Int
  network_delay : Int
  stonith_timeout : Int
  synapses : List synapse_t
  migration_limit : Int
  deriving Repr

/-- The struct `lrmd_event_data_t`: the fields the converter fills. -/
structure lrmd_event_data_t where
  call_id : Int
  rc : Int
  op_status : Int
  rsc_id : String
  op_type : String
  interval_ms : Int
  t_run : Int
  t_rcchange : Int
  params : GHashTable
  deriving Repr

/-! ## unpack_action -/

/-- The action `calloc` returns in `unpack_action`, with the four assignments
that follow it: id, default type, copied xml and parent. -/
def new_action (L : Lib) (parent : SynapseRef) (xml_action : XmlNode) (value : String) :
    crm_action_t :=
  { id := L.crm_parse_int (some value) none
    timeout := 0
    interval_ms := 0
    params := none
    type := action_type_e.action_type_rsc
    timer := none
    synapse := parent
    sent_update := false
    executed := false
    confirmed := false
    failed := false
    can_fail := false
    xml := some (copy_xml xml_action) }

/-- The if / else-if chain of `unpack_action` on the element name. -/
def action_type_of (L : Lib) (name : String) (dflt : action_type_e) : action_type_e :=
  if L.safe_str_eq name XML_GRAPH_TAG_RSC_OP then action_type_e.action_type_rsc
  else if L.safe_str_eq name XML_GRAPH_TAG_PSEUDO_EVENT then action_type_e.action_type_pseudo
  else if L.safe_str_eq name XML_GRAPH_TAG_CRM_EVENT then action_type_e.action_type_crm
  else dflt

/-- The function `unpack_action`: NULL when the element has no id. -/
def unpack_action (L : Lib) (parent : SynapseRef) (xml_action : XmlNode) :
    Option crm_action_t :=
  match crm_element_value xml_action XML_ATTR_ID with
  | none => none
  | some value =>
    let a0 := new_action L parent xml_action value
    let xml := copy_xml xml_action
    let a1 := { a0 with type := action_type_of L (crm_element_name xml) a0.type }
    let params := L.xml2list xml
    let a2 := { a1 with params := some params }
    let a3 :=
      match g_hash_table_lookup params "CRM_meta_timeout" with
      | some v => { a2 with timeout := L.crm_parse_int (some v) none }
      | none => a2
    let a4 :=
      match g_hash_table_lookup params "CRM_meta_start_delay" with
      | some v => { a3 with timeout := int_wrap (a3.timeout + L.crm_parse_int (some v) none) }
      | none => a3
    let a5 :=
      match g_hash_table_lookup params "CRM_meta_interval" with
      | some v => { a4 with interval_ms := guint_wrap (L.crm_parse_ms v) }
      | none => a4
    let a6 :=
      match g_hash_table_lookup params "CRM_meta_can_fail" with
      | some v =>
        match L.crm_str_to_boolean v with
        | some b => { a5 with can_fail := b }
        | none => a5
      | none => a5
    some a6

/-! ## unpack_synapse -/

/-- The state the two loops of `unpack_synapse` work on: the graph (for its
counters) and the synapse being filled. -/
abbrev SynState := crm_graph_t × synapse_t

/-- The body of the inner loop over the children of one `action_set`. -/
def action_step (L : Lib) (self : SynapseRef) (st : SynState) (action : XmlNode) : SynState :=
  match unpack_action L self action with
  | none => st
  | some new_action =>
    ({ st.1 with num_actions := st.1.num_actions + 1 },
     { st.2 with actions := st.2.actions ++ [new_action] })

/-- The body of the first loop of `unpack_synapse`, over its children. -/
def action_set_step (L : Lib) (self : SynapseRef) (st : SynState) (action_set : XmlNode) :
    SynState :=
  if crm_str_eq action_set.name "action_set" true then
    action_set.children.foldl (action_step L self) st
  else st

/-- The body of the innermost loop over the children of one trigger. -/
def input_step (L : Lib) (self : SynapseRef) (st : SynState) (input : XmlNode) : SynState :=
  match unpack_action L self input with
  | none => st
  | some new_input => (st.1, { st.2 with inputs := st.2.inputs ++ [new_input] })

/-- The body of the loop over the triggers of one `inputs` element. -/
def trigger_step (L : Lib) (self : SynapseRef) (st : SynState) (trigger : XmlNode) : SynState :=
  trigger.children.foldl (input_step L self) st

/-- The body of the second loop of `unpack_synapse`, over its children. -/
def inputs_step (L : Lib) (self : SynapseRef) (st : SynState) (inputs : XmlNode) : SynState :=
  if crm_str_eq inputs.name "inputs" true then
    inputs.children.foldl (trigger_step L self) st
  else st

/-- The synapse `calloc` returns in `unpack_synapse`, with id and priority
assigned. -/
def new_synapse (L : Lib) (xml_synapse : XmlNode) : synapse_t :=
  { id := L.crm_parse_int (ID xml_synapse) none
    priority :=
      match crm_element_value xml_synapse XML_CIB_ATTR_PRIORITY with
      | some value => L.crm_parse_int (some value) none
      | none => 0
    ready := false
    failed := false
    executed := false
    confirmed := false
    actions := []
    inputs := [] }

/-- The function `unpack_synapse`: the graph with its counters updated, and
the synapse or NULL. The handle given to the actions is the position the
caller appends the synapse at. -/
def unpack_synapse (L : Lib) (new_graph : crm_graph_t) (xml_synapse : Option XmlNode) :
    crm_graph_t × Option synapse_t :=
  match xml_synapse with
  | none => (new_graph, none)
  | some xs =>
    let s0 := new_synapse L xs
    if s0.id < 0 then (new_graph, none)
    else
      let self : SynapseRef := new_graph.synapses.length
      let g1 := { new_graph with num_synapses := new_graph.num_synapses + 1 }
      let st1 := xs.children.foldl (action_set_step L self) (g1, s0)
      let st2 := xs.children.foldl (inputs_step L self) st1
      (st2.1, some st2.2)

/-! ## unpack_graph -/

/-- The graph `calloc` returns in `unpack_graph`, with the defaults and the
source assigned. -/
def new_graph (reference : Option String) : crm_graph_t :=
  { id := -1
    source :=
      match reference with
      | some r => r
      | none => "unknown"
    abort_priority := 0
    completion_action := transition_action.tg_done
    num_actions := 0
    num_synapses := 0
    batch_limit := 0
    network_delay := 0
    stonith_timeout := 0
    synapses := []
    migration_limit := 0 }

/-- The body of the loop of `unpack_graph` over the children of the root. -/
def synapse_step (L : Lib) (g : crm_graph_t) (synapse : XmlNode) : crm_graph_t :=
  if crm_str_eq synapse.name "synapse" true then
    match unpack_synapse L g (some synapse) with
    | (g1, some new_synapse) => { g1 with synapses := g1.synapses ++ [new_synapse] }
    | (g1, none) => g1
  else g

/-- The attribute block of `unpack_graph`, run when the root is present:
NULL when `transition_id` or `cluster-delay` is missing. -/
def unpack_graph_attrs (L : Lib) (g : crm_graph_t) (xml_graph : XmlNode) : Option crm_graph_t :=
  match crm_element_value xml_graph "transition_id" with
  | none => none
  | some t_id =>
    let g1 := { g with id := L.crm_parse_int (some t_id) (some "-1") }
    match crm_element_value xml_graph "cluster-delay" with
    | none => none
    | some time =>
      let g2 := { g1 with network_delay := int_wrap (L.crm_parse_interval_spec time) }
      let g3 :=
        match crm_element_value xml_graph "stonith-timeout" with
        | none => { g2 with stonith_timeout := g2.network_delay }
        | some time => { g2 with stonith_timeout := int_wrap (L.crm_parse_interval_spec time) }
      let g4 :=
        { g3 with batch_limit := L.crm_parse_int (crm_element_value xml_graph "batch-limit") (some "0") }
      let g5 :=
        { g4 with
          migration_limit :=
            L.crm_parse_int (crm_element_value xml_graph "migration-limit") (some "-1") }
      some g5

/-- The children `__xml_first_child` and `__xml_next` walk through; none
when the parent is NULL. -/
def xml_children (parent : Option XmlNode) : List XmlNode :=
  match parent with
  | none => []
  | some p => p.children

/-- The function `unpack_graph`. -/
def unpack_graph (L : Lib) (xml_graph : Option XmlNode) (reference : Option String) :
    Option crm_graph_t :=
  let g0 := new_graph reference
  let attrs : Option crm_graph_t :=
    match xml_graph with
    | none => some g0
    | some x => unpack_graph_attrs L g0 x
  match attrs with
  | none => none
  | some g => some ((xml_children xml_graph).foldl (synapse_step L) g)

/-! ## convert_graph_action -/

/-- What stops `convert_graph_action` short of a return: a NULL string handed
to `strdup`, or a NULL table handed to the table iterator. -/
inductive Fault where
  | null_argument
  deriving DecidableEq, Repr

/-- The body of the loop of `convert_graph_action` over the children of the
resource history; the state is `op->call_id`. -/
def call_id_step (L : Lib) (call_id : Int) (xop : XmlNode) : Int :=
  let tmp : Int :=
    match L.crm_element_value_int xop XML_LRM_ATTR_CALLID with
    | some v => v
    | none => 0
  if tmp > call_id then tmp else call_id

/-- The loop of `convert_graph_action` that copies the parameters of the
action into a new table. -/
def copy_params (src : GHashTable) : GHashTable :=
  src.foldl (fun t p => g_hash_table_insert t p.1 p.2) g_hash_table_new_full

/-- The function `convert_graph_action`: `ok none` is the NULL of a failed
check, `ok (some op)` the event record. -/
def convert_graph_action (L : Lib) (resource : Option XmlNode) (action : Option crm_action_t)
    (status rc : Int) : Except Fault (Option lrmd_event_data_t) :=
  match action with
  | none => Except.ok none
  | some a =>
    if a.type ≠ action_type_e.action_type_rsc then Except.ok none
    else
      match first_named_child a.xml XML_CIB_TAG_RESOURCE with
      | none => Except.ok none
      | some action_resource =>
        match ID action_resource with
        | none => Except.error Fault.null_argument
        | some rsc_id =>
          match a.xml.bind (fun x => crm_element_value x XML_LRM_ATTR_TASK) with
          | none => Except.error Fault.null_argument
          | some op_type =>
            match a.params with
            | none => Except.error Fault.null_argument
            | some params =>
              let call_id := (xml_children resource).foldl (call_id_step L) 0
              Except.ok (some
                { call_id := int_wrap (call_id + 1)
                  rc := rc
                  op_status := status
                  rsc_id := rsc_id
                  op_type := op_type
                  interval_ms := a.interval_ms
                  t_run := L.time
                  t_rcchange := L.time
                  params := copy_params params })

/-! ## A reference library

An instance of `Lib` to run the code on concrete documents. -/

/-- Drop leading blanks. -/
def skip_blanks : List Char → List Char
  | [] => []
  | c :: cs => if c = ' ' then skip_blanks cs else c :: cs

/-- The number spelled by the leading decimal digits, after `acc`. -/
def leading_digits : List Char → Nat → Nat
  | [], acc => acc
  | c :: cs, acc => if c.isDigit then leading_digits cs (acc * 10 + (c.toNat - 48)) else acc

/-- What follows the leading decimal digits. -/
def after_digits : List Char → List Char
  | [] => []
  | c :: cs => if c.isDigit then after_digits cs else c :: cs

/-- The integer a text starts with: blanks, a sign, decimal digits; 0 when
there is no digit. -/
def leading_int (cs : List Char) : Int :=
  match skip_blanks cs with
  | '-' :: rest => - (leading_digits rest 0 : Int)
  | '+' :: rest => (leading_digits rest 0 : Int)
  | rest => (leading_digits rest 0 : Int)

/-- Clip to the range of an `int`. -/
def int_clip (x : Int) : Int :=
  if x < INT_MIN then INT_MIN else if x > INT_MAX then INT_MAX else x

/-- Modelled from the spec: `crm_parse_int` is not under src/; the spec has
it read an integer from the attribute text. The text defaults to the second
argument, the result is -1 when both are absent, and it is clipped to `int`. -/
def ref_crm_parse_int (text default_text : Option String) : Int :=
  match text, default_text with
  | some t, _ => int_clip (leading_int t.toList)
  | none, some d => int_clip (leading_int d.toList)
  | none, none => -1

/-- Modelled from the spec: `crm_parse_interval_spec` and `crm_parse_ms` are
not under src/; the spec has durations as integer milliseconds or a number
with a unit suffix `ms`, `s`, `m`, `h`. -/
def ref_duration (text : String) : Int :=
  let cs := skip_blanks text.toList
  let n : Int := leading_digits cs 0
  match after_digits cs with
  | ['s'] => n * 1000
  | ['m'] => n * 60000
  | ['h'] => n * 3600000
  | _ => n

/-- Modelled from the spec: `crm_str_to_boolean` is not under src/; the spec
has it read `true/false/yes/no/on/off/1/0` without regard to case. -/
def ref_crm_str_to_boolean (s : String) : Option Bool :=
  let l := s.toList.map Char.toLower
  if l = "true".toList ∨ l = "yes".toList ∨ l = "on".toList ∨ l = "1".toList then some true
  else if l = "false".toList ∨ l = "no".toList ∨ l = "off".toList ∨ l = "0".toList then
    some false
  else none

/-- Modelled from the spec: `xml2list` is not under src/; the spec has the
mapping built from every pair on the action element and on its child
elements named `attributes`. -/
def ref_xml2list (x : XmlNode) : GHashTable :=
  (x.attrs ++ (x.children.filter (fun c => c.name == "attributes")).flatMap XmlNode.attrs).foldl
    (fun t p => g_hash_table_insert t p.1 p.2) g_hash_table_new_full

/-- Modelled from the spec: `crm_element_value_int` is not under src/; the
spec has an absent or non-integer attribute leave the destination at 0. -/
def ref_crm_element_value_int (x : XmlNode) (name : String) : Option Int :=
  match crm_element_value x name with
  | none => none
  | some v => some (int_clip (leading_int v.toList))

/-- The reference library. -/
def refLib : Lib :=
  { crm_parse_int := ref_crm_parse_int
    crm_parse_ms := ref_duration
    crm_parse_interval_spec := ref_duration
    crm_str_to_boolean := ref_crm_str_to_boolean
    safe_str_eq := fun a b => a == b
    xml2list := ref_xml2list
    crm_element_value_int := ref_crm_element_value_int
    time := 0 }


/-- The actions the first loop of `unpack_synapse` builds from the children
of a synapse element. -/
def set_actions (L : Lib) (self : SynapseRef) (children : List XmlNode) : List crm_action_t :=
  (children.filter (fun c => crm_str_eq c.name "action_set" true)).flatMap
    (fun action_set => action_set.children.filterMap (unpack_action L self))

/-- The actions the second loop of `unpack_synapse` builds from the children
of a synapse element. -/
def input_actions (L : Lib) (self : SynapseRef) (children : List XmlNode) : List crm_action_t :=
  (children.filter (fun c => crm_str_eq c.name "inputs" true)).flatMap
    (fun inputs => inputs.children.flatMap
      (fun trigger => trigger.children.filterMap (unpack_action L self)))

/-- Whether `unpack_graph` hands the element to `unpack_synapse` and keeps
the synapse it returns. -/
def accepted (L : Lib) (c : XmlNode) : Bool :=
  crm_str_eq c.name "synapse" true && decide (0 ≤ L.crm_parse_int (ID c) none)

/-! ## Example documents -/

/-- An action element with an id and the given timing parameters. -/
def example_rsc_op (id timeout start_delay : String) : XmlNode :=
  XmlNode.mk "rsc_op" [("id", id), ("operation", "start")]
    [XmlNode.mk "primitive" [("id", "rsc1")] [],
     XmlNode.mk "attributes"
       [("CRM_meta_timeout", timeout), ("CRM_meta_start_delay", start_delay)] []]

/-- A synapse element with two action sets (three actions with an id, one
without), an unknown child, and two `inputs` elements holding three inputs
with an id and one without. -/
def example_synapse : XmlNode :=
  XmlNode.mk "synapse" [("id", "1"), ("priority", "5")]
    [XmlNode.mk "inputs" []
       [XmlNode.mk "trigger" []
          [XmlNode.mk "rsc_op" [("id", "10")] [], XmlNode.mk "rsc_op" [] []]],
     XmlNode.mk "action_set" []
       [example_rsc_op "42" "5000" "2000", XmlNode.mk "rsc_op" [("operation", "stop")] [],
        XmlNode.mk "pseudo_event" [("id", "43")] []],
     XmlNode.mk "other" [] [XmlNode.mk "rsc_op" [("id", "99")] []],
     XmlNode.mk "action_set" [] [XmlNode.mk "crm_event" [("id", "44")] []],
     XmlNode.mk "inputs" []
       [XmlNode.mk "trigger" [] [XmlNode.mk "pseudo_event" [("id", "11")] []],
        XmlNode.mk "trigger" [] [XmlNode.mk "crm_event" [("id", "12")] []]]]

/-- A synapse element whose id is negative, holding an action with an id. -/
def example_bad_synapse : XmlNode :=
  XmlNode.mk "synapse" [("id", "-2")]
    [XmlNode.mk "action_set" [] [XmlNode.mk "rsc_op" [("id", "50")] []]]

/-- A transition graph document: a synapse, a rejected synapse, an unknown
element and a second synapse. -/
def example_document : XmlNode :=
  XmlNode.mk "transition_graph" [("transition_id", "7"), ("cluster-delay", "30s")]
    [example_synapse, example_bad_synapse, XmlNode.mk "comment" [] [],
     XmlNode.mk "synapse" [("id", "0")]
       [XmlNode.mk "action_set" [] [XmlNode.mk "rsc_op" [("id", "60")] []]]]

/-- The graph built from `example_document` with the reference library. -/
def example_graph : crm_graph_t :=
  (unpack_graph refLib (some example_document) none).getD (new_graph none)

/-! ## The claims' own descriptions of the results -/

/-- The children, in document order, of the children of a synapse element
that are named `action_set`, keeping those that carry an id attribute. -/
def id_bearing_action_elements (xml_synapse : XmlNode) : List XmlNode :=
  ((xml_synapse.children.filter fun c => c.name == "action_set").flatMap
    XmlNode.children).filter fun a => (ID a).isSome

/-- The parsed ids, in document order, of the children of the root that are
named `synapse`, keeping the ids that are not negative. -/
def synapse_element_ids (L : Lib) (xml_graph : Option XmlNode) : List Int :=
  (((xml_children xml_graph).filter fun c => c.name == "synapse").map
    fun c => L.crm_parse_int (ID c) none).filter fun i => decide (0 ≤ i)

/-- The number of children of the root that `unpack_graph` keeps a synapse
for: those named `synapse` whose parsed id is not negative. -/
def kept_synapse_elements (L : Lib) (xml_graph : Option XmlNode) : List XmlNode :=
  (xml_children xml_graph).filter fun c =>
    c.name == "synapse" && decide (0 ≤ L.crm_parse_int (ID c) none)

/-- An action element whose timeout is the largest `int` and whose start
delay is 1. -/
def example_overflow_op : XmlNode :=
  example_rsc_op "42" "2147483647" "1"

/-- The value a child of the resource history counts for: its `call-id`
attribute as `crm_element_value_int` reads it, 0 when it writes nothing. -/
def call_id_attr (L : Lib) (xop : XmlNode) : Int :=
  match L.crm_element_value_int xop XML_LRM_ATTR_CALLID with
  | some v => v
  | none => 0

/-- The call id in the words of C7: 1 + the maximum of the call-id values of
the children of the history, and 1 for a history without children. -/
def claimed_call_id (L : Lib) (resource : Option XmlNode) : Int :=
  match (xml_children resource).map (call_id_attr L) with
  | [] => 1
  | v :: vs => 1 + vs.foldl max v

/-- The call id as amended: 1 + the maximum of 0 and the call-id values of
the children of the history. -/
def floored_call_id (L : Lib) (resource : Option XmlNode) : Int :=
  1 + ((xml_children resource).map (call_id_attr L)).foldl max 0

/-- The call id of the event record, when one is returned. -/
def event_call_id (r : Except Fault (Option lrmd_event_data_t)) : Option Int :=
  match r with
  | Except.ok (some op) => some op.call_id
  | _ => none

/-- A resource history whose only entry has call-id -1. -/
def example_history_negative : XmlNode :=
  XmlNode.mk "lrm_resource" [("id", "rsc1")]
    [XmlNode.mk "lrm_rsc_op" [("id", "rsc1_last_0"), ("call-id", "-1")] []]

/-- A resource history with call-ids 3, 7 and 5, and an entry without one. -/
def example_history : XmlNode :=
  XmlNode.mk "lrm_resource" [("id", "rsc1")]
    [XmlNode.mk "lrm_rsc_op" [("call-id", "3")] [],
     XmlNode.mk "lrm_rsc_op" [("call-id", "7")] [],
     XmlNode.mk "lrm_rsc_op" [] [],
     XmlNode.mk "lrm_rsc_op" [("call-id", "5")] []]

/-- The action built from a resource operation element. -/
def example_action : Option crm_action_t :=
  unpack_action refLib 0 (example_rsc_op "42" "5000" "2000")

/-- The event built from `example_action` against `example_history`. -/
def example_event : lrmd_event_data_t :=
  match convert_graph_action refLib (some example_history) example_action 0 0 with
  | Except.ok (some op) => op
  | _ =>
    { call_id := 0, rc := 0, op_status := 0, rsc_id := "", op_type := "", interval_ms := 0,
      t_run := 0, t_rcchange := 0, params := [] }

/-- An action of type pseudo. -/
def example_pseudo_action : Option crm_action_t :=
  unpack_action refLib 0 (XmlNode.mk "pseudo_event" [("id", "43")]
    [XmlNode.mk "primitive" [("id", "rsc1")] []])

/-- What every action of a graph is known to satisfy: it was built from an
element that carries an id attribute, and its id is what `crm_parse_int`
reads from that attribute. -/
def id_from_attribute (L : Lib) (a : crm_action_t) : Prop :=
  ∃ x v, a.xml = some x ∧ ID x = some v ∧ a.id = L.crm_parse_int (some v) none

/-- A document whose actions and inputs have ids that are zero, negative or
not a number. -/
def example_nonpositive_document : XmlNode :=
  XmlNode.mk "transition_graph" [("transition_id", "7"), ("cluster-delay", "30s")]
    [XmlNode.mk "synapse" [("id", "1")]
      [XmlNode.mk "action_set" []
         [XmlNode.mk "rsc_op" [("id", "0")] [], XmlNode.mk "rsc_op" [("id", "-3")] [],
          XmlNode.mk "rsc_op" [("id", "abc")] []],
       XmlNode.mk "inputs" []
         [XmlNode.mk "trigger" [] [XmlNode.mk "rsc_op" [("id", "-7")] []]]]]

/-- The ids of the actions and of the inputs of each synapse of a graph. -/
def action_ids (G : Option crm_graph_t) : Option (List (List Int × List Int)) :=
  G.map fun g => g.synapses.map fun s => (s.actions.map fun a => a.id, s.inputs.map fun a => a.id)

/-- Whether every action in the actions and inputs of every synapse of a
graph has a positive id. -/
def all_action_ids_positive (g : crm_graph_t) : Bool :=
  g.synapses.all fun s => (s.actions ++ s.inputs).all fun a => decide (0 < a.id)

/-- The graph as the attribute block of `unpack_graph` leaves it when the
root has `transition_id` t and `cluster-delay` c. -/
def graph_of_attrs (L : Lib) (g : crm_graph_t) (xml_graph : XmlNode) (t c : String) :
    crm_graph_t :=
  { g with
    id := L.crm_parse_int (some t) (some "-1")
    network_delay := int_wrap (L.crm_parse_interval_spec c)
    stonith_timeout :=
      match crm_element_value xml_graph "stonith-timeout" with
      | none => int_wrap (L.crm_parse_interval_spec c)
      | some st => int_wrap (L.crm_parse_interval_spec st)
    batch_limit := L.crm_parse_int (crm_element_value xml_graph "batch-limit") (some "0")
    migration_limit :=
      L.crm_parse_int (crm_element_value xml_graph "migration-limit") (some "-1") }

/-- A root with a negative `batch-limit`. -/
def example_negative_batch_limit : XmlNode :=
  XmlNode.mk "transition_graph"
    [("transition_id", "7"), ("cluster-delay", "30s"), ("batch-limit", "-5")] []

/-- A root with a `stonith-timeout`, a `batch-limit` and a `migration-limit`. -/
def example_full_root : XmlNode :=
  XmlNode.mk "transition_graph"
    [("transition_id", "7"), ("cluster-delay", "30s"), ("stonith-timeout", "2m"),
     ("batch-limit", "4"), ("migration-limit", "2")] [example_synapse]

/-- The minimal root of scenario S1. -/
def example_minimal_root : XmlNode :=
  XmlNode.mk "transition_graph" [("transition_id", "7"), ("cluster-delay", "30s")] []

/-- The graph built from `example_full_root` with the reference library. -/
def example_full_graph : crm_graph_t :=
  (unpack_graph refLib (some example_full_root) (some "pe-input-1")).getD (new_graph none)

/-- The value `unpack_graph` gives `batch_limit`: the zero of `calloc` when
the root is absent, otherwise what `crm_parse_int` reads from the
`batch-limit` attribute with default text "0". -/
def batch_limit_of (L : Lib) (xml_graph : Option XmlNode) : Int :=
  match xml_graph with
  | none => 0
  | some root => L.crm_parse_int (crm_element_value root "batch-limit") (some "0")

/-- The value `unpack_action` gives `can_fail`: the zero of `calloc` unless
`CRM_meta_can_fail` is among the parameters and `crm_str_to_boolean` writes
a value for it. -/
def can_fail_of (L : Lib) (params : GHashTable) : Bool :=
  match g_hash_table_lookup params "CRM_meta_can_fail" with
  | some v =>
    match L.crm_str_to_boolean v with
    | some b => b
    | none => false
  | none => false

/-- Whether a text is a case variant of a word: the two agree once every
letter is put in lower case. -/
def case_variant (s w : String) : Prop :=
  s.toList.map Char.toLower = w.toList.map Char.toLower

/-- An action element whose `CRM_meta_can_fail` is "Yes". -/
def example_can_fail_op : XmlNode :=
  XmlNode.mk "rsc_op" [("id", "42"), ("operation", "start")]
    [XmlNode.mk "primitive" [("id", "rsc1")] [],
     XmlNode.mk "attributes" [("CRM_meta_can_fail", "Yes"), ("CRM_meta_interval", "10s")] []]

/-- The action built from `example_can_fail_op`. -/
def example_can_fail_action : Option crm_action_t :=
  unpack_action refLib 0 example_can_fail_op

/-- The event built from `example_can_fail_action` against
`example_history`, with status 3 and return code 5. -/
def example_can_fail_event : lrmd_event_data_t :=
  match convert_graph_action refLib (some example_history) example_can_fail_action 3 5 with
  | Except.ok (some op) => op
  | _ =>
    { call_id := 0, rc := 0, op_status := 0, rsc_id := "", op_type := "", interval_ms := 0,
      t_run := 0, t_rcchange := 0, params := [] }

/-- The grandchildren, in document order, of the children of a synapse
element that are named `inputs` (the children of each trigger grouping),
keeping those that carry an id attribute. -/
def id_bearing_input_elements (xml_synapse : XmlNode) : List XmlNode :=
  (((xml_synapse.children.filter fun c => c.name == "inputs").flatMap
    XmlNode.children).flatMap XmlNode.children).filter fun a => (ID a).isSome

/-- The synapse element of `example_synapse` with its `inputs` children
moved behind the action sets. -/
def example_synapse_reordered : XmlNode :=
  XmlNode.mk "synapse" [("id", "1"), ("priority", "5")]
    [XmlNode.mk "action_set" []
       [example_rsc_op "42" "5000" "2000", XmlNode.mk "rsc_op" [("operation", "stop")] [],
        XmlNode.mk "pseudo_event" [("id", "43")] []],
     XmlNode.mk "action_set" [] [XmlNode.mk "crm_event" [("id", "44")] []],
     XmlNode.mk "inputs" []
       [XmlNode.mk "trigger" []
          [XmlNode.mk "rsc_op" [("id", "10")] [], XmlNode.mk "rsc_op" [] []]],
     XmlNode.mk "inputs" []
       [XmlNode.mk "trigger" [] [XmlNode.mk "pseudo_event" [("id", "11")] []],
        XmlNode.mk "trigger" [] [XmlNode.mk "crm_event" [("id", "12")] []]]]

/-! ## Teardown

The teardown functions return nothing; what they do to the outside is the
calls of `g_source_remove`. Each function here returns the source ids it
hands to `g_source_remove`, in the order of the calls. -/

/-- The function `destroy_action`: the timer is cancelled when it is present
and its source id is not 0. -/
def destroy_action (action : crm_action_t) : List Nat :=
  match action.timer with
  | some timer => if timer.source_id ≠ 0 then [timer.source_id] else []
  | none => []

/-- One of the two `while` loops of `destroy_synapse`: as long as the list
is not empty, its element 0 is taken, unlinked with `g_list_remove` (the
first link holding it is link 0) and destroyed. -/
def destroy_action_list : List crm_action_t → List Nat
  | [] => []
  | action :: rest => destroy_action action ++ destroy_action_list rest

/-- The function `destroy_synapse`: the actions are drained, then the
inputs. -/
def destroy_synapse (synapse : synapse_t) : List Nat :=
  destroy_action_list synapse.actions ++ destroy_action_list synapse.inputs

/-- The `while` loop of `destroy_graph`: as long as the list is not empty,
its element 0 is taken, unlinked and destroyed. -/
def destroy_synapse_list : List synapse_t → List Nat
  | [] => []
  | synapse :: rest => destroy_synapse synapse ++ destroy_synapse_list rest

/-- The function `destroy_graph`: nothing is done for a NULL graph. -/
def destroy_graph (graph : Option crm_graph_t) : List Nat :=
  match graph with
  | none => []
  | some g => destroy_synapse_list g.synapses

/-- Whether the timer of an action is present with a source id that is not
0. -/
def has_live_timer (a : crm_action_t) : Bool :=
  match a.timer with
  | some timer => decide (timer.source_id ≠ 0)
  | none => false

/-- The source id of the timer of an action, 0 without a timer. -/
def timer_source_id (a : crm_action_t) : Nat :=
  match a.timer with
  | some timer => timer.source_id
  | none => 0

/-- The timers teardown is to cancel, in the words of C22: synapse by
synapse in order, within a synapse the actions before the inputs, the source
ids of the actions whose timer is present with a source id that is not 0. -/
def live_timer_handles (g : crm_graph_t) : List Nat :=
  g.synapses.flatMap fun s => ((s.actions ++ s.inputs).filter has_live_timer).map timer_source_id

/-- A resource operation element without a task attribute. -/
def example_op_without_task : XmlNode :=
  XmlNode.mk "rsc_op" [("id", "42")] [XmlNode.mk "primitive" [("id", "rsc1")] []]

/-- A resource operation element whose resource child has no id. -/
def example_op_without_resource_id : XmlNode :=
  XmlNode.mk "rsc_op" [("id", "42"), ("operation", "start")] [XmlNode.mk "primitive" [] []]

/-- Whether the three checks at the head of `convert_graph_action` pass: the
action is present, its type is rsc and its xml has a child named as the
resource tag. -/
def preconditions_hold (action : Option crm_action_t) : Bool :=
  match action with
  | none => false
  | some a =>
    decide (a.type = action_type_e.action_type_rsc) &&
      (first_named_child a.xml XML_CIB_TAG_RESOURCE).isSome

/-- Whether `convert_graph_action` came back with an event record. -/
def returns_event (r : Except Fault (Option lrmd_event_data_t)) : Bool :=
  match r with
  | Except.ok (some _) => true
  | _ => false

/-- Whether `convert_graph_action` was stopped by a fault. -/
def is_fault (r : Except Fault (Option lrmd_event_data_t)) : Bool :=
  match r with
  | Except.error _ => true
  | _ => false

/-- The event built from `example_action` against
`example_history_negative`. -/
def example_negative_event : lrmd_event_data_t :=
  match convert_graph_action refLib (some example_history_negative) example_action 0 0 with
  | Except.ok (some op) => op
  | _ =>
    { call_id := 0, rc := 0, op_status := 0, rsc_id := "", op_type := "", interval_ms := 0,
      t_run := 0, t_rcchange := 0, params := [] }

/-- The reference library with `safe_str_eq` comparing without regard to
letter case. The macro is not under src/; this file compares the container
names with `crm_str_eq(..., TRUE)`, the comparison told to use case, and the
action names with `safe_str_eq`, which in the common library is the same
comparison told not to. -/
def ignoreCaseLib : Lib :=
  { refLib with
    safe_str_eq := fun a b =>
      decide (a.toList.map Char.toLower = b.toList.map Char.toLower) }

/-- An action element named `PSEUDO_EVENT`, in upper case. -/
def example_upper_case_event : XmlNode :=
  XmlNode.mk "PSEUDO_EVENT" [("id", "43")] []

/-- An action element whose name is none of the three tags in any letter
case. -/
def example_unknown_op : XmlNode :=
  XmlNode.mk "notify_op" [("id", "45")] []

theorem action_fold (L : Lib) (self : SynapseRef) (cs : List XmlNode) (st : SynState) :
    cs.foldl (action_step L self) st =
      ({ st.1 with
          num_actions := st.1.num_actions + ((cs.filterMap (unpack_action L self)).length : Int) },
       { st.2 with actions := st.2.actions ++ cs.filterMap (unpack_action L self) }) := by
  induction cs generalizing st with
  | nil => simp
  | cons c cs ih =>
    rw [List.foldl_cons, ih]
    cases h : unpack_action L self c with
    | none => simp [action_step, h]
    | some a =>
      simp [action_step, h]
      omega

theorem action_set_fold (L : Lib) (self : SynapseRef) (xs : List XmlNode) (st : SynState) :
    xs.foldl (action_set_step L self) st =
      ({ st.1 with num_actions := st.1.num_actions + ((set_actions L self xs).length : Int) },
       { st.2 with actions := st.2.actions ++ set_actions L self xs }) := by
  induction xs generalizing st with
  | nil => simp [set_actions]
  | cons x xs ih =>
    rw [List.foldl_cons, ih]
    by_cases h : crm_str_eq x.name "action_set" true = true
    · simp [action_set_step, h, action_fold, set_actions, List.filter_cons]
      omega
    · simp [action_set_step, h, set_actions, List.filter_cons]

theorem input_fold (L : Lib) (self : SynapseRef) (cs : List XmlNode) (st : SynState) :
    cs.foldl (input_step L self) st =
      (st.1, { st.2 with inputs := st.2.inputs ++ cs.filterMap (unpack_action L self) }) := by
  induction cs generalizing st with
  | nil => simp
  | cons c cs ih =>
    rw [List.foldl_cons, ih]
    cases h : unpack_action L self c with
    | none => simp [input_step, h]
    | some a => simp [input_step, h]

theorem trigger_fold (L : Lib) (self : SynapseRef) (ts : List XmlNode) (st : SynState) :
    ts.foldl (trigger_step L self) st =
      (st.1, { st.2 with
                inputs := st.2.inputs ++ ts.flatMap
                  (fun trigger => trigger.children.filterMap (unpack_action L self)) }) := by
  induction ts generalizing st with
  | nil => simp
  | cons t ts ih =>
    rw [List.foldl_cons, ih]
    simp [trigger_step, input_fold]

theorem inputs_fold (L : Lib) (self : SynapseRef) (xs : List XmlNode) (st : SynState) :
    xs.foldl (inputs_step L self) st =
      (st.1, { st.2 with inputs := st.2.inputs ++ input_actions L self xs }) := by
  induction xs generalizing st with
  | nil => simp [input_actions]
  | cons x xs ih =>
    rw [List.foldl_cons, ih]
    by_cases h : crm_str_eq x.name "inputs" true = true
    · simp [inputs_step, h, trigger_fold, input_actions, List.filter_cons]
    · simp [inputs_step, h, input_actions, List.filter_cons]

/-- What `unpack_synapse` returns for an element whose parsed id is not
negative. -/
theorem unpack_synapse_ok (L : Lib) (g : crm_graph_t) (xs : XmlNode)
    (h : 0 ≤ L.crm_parse_int (ID xs) none) :
    unpack_synapse L g (some xs) =
      ({ g with
          num_synapses := g.num_synapses + 1
          num_actions :=
            g.num_actions + ((set_actions L g.synapses.length xs.children).length : Int) },
       some { new_synapse L xs with
          actions := set_actions L g.synapses.length xs.children
          inputs := input_actions L g.synapses.length xs.children }) := by
  have h1 : ¬ (new_synapse L xs).id < 0 := by
    simp only [new_synapse]
    omega
  simp [unpack_synapse, action_set_fold, inputs_fold, new_synapse, h]

/-- What `unpack_synapse` returns for an element whose parsed id is
negative. -/
theorem unpack_synapse_reject (L : Lib) (g : crm_graph_t) (xs : XmlNode)
    (h : L.crm_parse_int (ID xs) none < 0) :
    unpack_synapse L g (some xs) = (g, none) := by
  have h1 : (new_synapse L xs).id < 0 := by
    simp only [new_synapse]
    exact h
  simp [unpack_synapse, h1]


/-- One round of the loop of `unpack_graph`, by cases on the element. -/
theorem synapse_step_eq (L : Lib) (g : crm_graph_t) (x : XmlNode) :
    synapse_step L g x =
      if accepted L x = true then
        { g with
          num_synapses := g.num_synapses + 1
          num_actions :=
            g.num_actions + ((set_actions L g.synapses.length x.children).length : Int)
          synapses := g.synapses ++
            [{ new_synapse L x with
                actions := set_actions L g.synapses.length x.children
                inputs := input_actions L g.synapses.length x.children }] }
      else g := by
  by_cases hn : crm_str_eq x.name "synapse" true = true
  · by_cases hi : 0 ≤ L.crm_parse_int (ID x) none
    · simp [synapse_step, accepted, hn, hi, unpack_synapse_ok]
    · have hneg : L.crm_parse_int (ID x) none < 0 := by omega
      simp [synapse_step, accepted, hn, hi, unpack_synapse_reject L g x hneg]
  · simp [synapse_step, accepted, hn]

/-- A property of the graph that every round of the loop of `unpack_graph`
keeps holds after the loop. -/
theorem synapse_fold_inv (L : Lib) (P : crm_graph_t → Prop)
    (hstep : ∀ g x, P g → P (synapse_step L g x)) (xs : List XmlNode) (g : crm_graph_t)
    (h : P g) : P (xs.foldl (synapse_step L) g) := by
  induction xs generalizing g with
  | nil => exact h
  | cons x xs ih => exact ih _ (hstep g x h)

/-- The attribute block of `unpack_graph` leaves the source, the counters and
the synapses as they are. -/
theorem unpack_graph_attrs_frame (L : Lib) (g g1 : crm_graph_t) (x : XmlNode)
    (h : unpack_graph_attrs L g x = some g1) :
    g1.source = g.source ∧ g1.num_actions = g.num_actions ∧
      g1.num_synapses = g.num_synapses ∧ g1.synapses = g.synapses := by
  unfold unpack_graph_attrs at h
  cases ht : crm_element_value x "transition_id" with
  | none => simp [ht] at h
  | some t =>
    cases hc : crm_element_value x "cluster-delay" with
    | none => simp [ht, hc] at h
    | some c =>
      cases hs : crm_element_value x "stonith-timeout" with
      | none =>
        simp [ht, hc, hs] at h
        subst h
        simp
      | some st =>
        simp [ht, hc, hs] at h
        subst h
        simp

/-- The graph `unpack_graph` returns is the loop run on a graph that has no
synapses, zeroed counters and the source of `new_graph`. -/
theorem unpack_graph_shape (L : Lib) (xml_graph : Option XmlNode) (reference : Option String)
    (G : crm_graph_t) (h : unpack_graph L xml_graph reference = some G) :
    ∃ g, g.synapses = [] ∧ g.num_actions = 0 ∧ g.num_synapses = 0 ∧
      g.source = (new_graph reference).source ∧
      G = (xml_children xml_graph).foldl (synapse_step L) g := by
  unfold unpack_graph at h
  cases xml_graph with
  | none =>
    simp at h
    exact ⟨new_graph reference, rfl, rfl, rfl, rfl, h.symm⟩
  | some x =>
    cases ha : unpack_graph_attrs L (new_graph reference) x with
    | none => simp [ha] at h
    | some g =>
      simp [ha] at h
      obtain ⟨h1, h2, h3, h4⟩ := unpack_graph_attrs_frame L _ g x ha
      exact ⟨g, by rw [h4]; rfl, by rw [h2]; rfl, by rw [h3]; rfl, h1, h.symm⟩

/-- The ids the loop of `unpack_graph` appends, in order. -/
theorem synapse_fold_ids (L : Lib) (xs : List XmlNode) (g : crm_graph_t) :
    ((xs.foldl (synapse_step L) g).synapses.map fun s => s.id) =
      (g.synapses.map fun s => s.id) ++
        ((xs.filter (accepted L)).map fun c => L.crm_parse_int (ID c) none) := by
  induction xs generalizing g with
  | nil => simp
  | cons x xs ih =>
    rw [List.foldl_cons, ih, synapse_step_eq]
    by_cases ha : accepted L x = true
    · simp [ha, List.filter_cons, new_synapse]
    · simp [ha, List.filter_cons]

/-! ## The claims -/

/-- C1: for every document root and provenance string for which
`unpack_graph` returns a graph, its `num_actions` is the sum over its
synapses of the length of their `actions` lists; the `inputs` lists do not
enter the count. -/
theorem unpack_graph_num_actions (L : Lib) (xml_graph : Option XmlNode)
    (reference : Option String) (G : crm_graph_t)
    (h : unpack_graph L xml_graph reference = some G) :
    G.num_actions = (((G.synapses.map fun s => s.actions.length).sum : Nat) : Int) := by
  obtain ⟨g, hs, ha, _, _, hG⟩ := unpack_graph_shape L xml_graph reference G h
  subst hG
  apply synapse_fold_inv L
    (fun g => g.num_actions = (((g.synapses.map fun s => s.actions.length).sum : Nat) : Int))
  · intro g x hg
    rw [synapse_step_eq]
    by_cases hacc : accepted L x = true
    · simp only [hacc, if_true, List.map_append, List.sum_append, List.map_cons, List.map_nil,
        List.sum_cons, List.sum_nil]
      rw [hg]
      push_cast
      omega
    · simpa [hacc] using hg
  · simp [hs, ha]

/-- C2: for every document root and provenance string for which
`unpack_graph` returns a graph, its `num_synapses` is the length of its
`synapses` list. -/
theorem unpack_graph_num_synapses (L : Lib) (xml_graph : Option XmlNode)
    (reference : Option String) (G : crm_graph_t)
    (h : unpack_graph L xml_graph reference = some G) :
    G.num_synapses = (G.synapses.length : Int) := by
  obtain ⟨g, hs, _, hn, _, hG⟩ := unpack_graph_shape L xml_graph reference G h
  subst hG
  apply synapse_fold_inv L (fun g => g.num_synapses = (g.synapses.length : Int))
  · intro g x hg
    rw [synapse_step_eq]
    by_cases hacc : accepted L x = true
    · simp only [hacc, if_true, List.length_append, List.length_cons, List.length_nil]
      rw [hg]
      push_cast
      omega
    · simpa [hacc] using hg
  · simp [hs, hn]


/-- C1 at `example_document`: four actions in action sets, three inputs. -/
theorem unpack_graph_num_actions_witness :
    unpack_graph refLib (some example_document) none = some example_graph ∧
      example_graph.num_actions =
        (((example_graph.synapses.map fun s => s.actions.length).sum : Nat) : Int) ∧
      example_graph.num_actions = 4 ∧
      (example_graph.synapses.map fun s => s.inputs.length) = [3, 0] :=
  ⟨rfl, unpack_graph_num_actions refLib (some example_document) none example_graph rfl,
    by decide, by decide⟩

/-- C2 at `example_document`. -/
theorem unpack_graph_num_synapses_witness :
    unpack_graph refLib (some example_document) none = some example_graph ∧
      example_graph.num_synapses = (example_graph.synapses.length : Int) :=
  ⟨rfl, unpack_graph_num_synapses refLib (some example_document) none example_graph rfl⟩

/-- An element without an id gives no action. -/
theorem unpack_action_no_id (L : Lib) (parent : SynapseRef) (c : XmlNode) (h : ID c = none) :
    unpack_action L parent c = none := by
  unfold ID at h
  simp [unpack_action, h]

/-- An element gives an action exactly when it has an id. -/
theorem unpack_action_isSome (L : Lib) (parent : SynapseRef) (c : XmlNode) :
    (unpack_action L parent c).isSome = (ID c).isSome := by
  cases h : ID c with
  | none => simp [unpack_action_no_id L parent c h]
  | some v =>
    unfold ID at h
    simp [unpack_action, h]

/-- The results that are present, wrapped again, are the results on the
inputs that give one. -/
theorem filterMap_map_some {α β : Type} (f : α → Option β) (l : List α) :
    (l.filterMap f).map some = (l.filter fun a => (f a).isSome).map f := by
  induction l with
  | nil => rfl
  | cons a l ih =>
    cases h : f a with
    | none => simp [List.filterMap_cons, List.filter_cons, h, ih]
    | some b => simp [List.filterMap_cons, List.filter_cons, h, ih]

/-- Filtering the concatenation of the lists is concatenating the filtered
lists. -/
theorem filter_flatMap_eq {α β : Type} (p : β → Bool) (f : α → List β) (l : List α) :
    (l.flatMap f).filter p = l.flatMap fun a => (f a).filter p := by
  induction l with
  | nil => rfl
  | cons a l ih => simp [List.flatMap_cons, List.filter_append, ih]

/-- The actions of the first loop, in the words of C3. -/
theorem set_actions_eq (L : Lib) (self : SynapseRef) (xs : XmlNode) :
    (set_actions L self xs.children).map some =
      (id_bearing_action_elements xs).map (unpack_action L self) := by
  unfold set_actions id_bearing_action_elements crm_str_eq
  rw [filter_flatMap_eq]
  generalize (xs.children.filter fun c => c.name == "action_set") = sets
  induction sets with
  | nil => rfl
  | cons a sets ih =>
    simp only [List.flatMap_cons, List.map_append, ih, filterMap_map_some,
      unpack_action_isSome]

/-- C3: for every synapse element whose parsed id is not negative,
`unpack_synapse` returns a synapse whose `actions` are exactly the actions
`unpack_action` builds from the id-bearing children of the element's
`action_set` children, in document order; a child without an id gives no
action, and children of elements of any other name are not looked at. -/
theorem unpack_synapse_actions (L : Lib) (g : crm_graph_t) (xs : XmlNode)
    (h : 0 ≤ L.crm_parse_int (ID xs) none) :
    (∃ g1 s, unpack_synapse L g (some xs) = (g1, some s) ∧
      s.actions.map some =
        (id_bearing_action_elements xs).map (unpack_action L g.synapses.length) ∧
      s.actions.length = (id_bearing_action_elements xs).length) ∧
    ∀ c, ID c = none → unpack_action L g.synapses.length c = none := by
  refine ⟨⟨_, _, unpack_synapse_ok L g xs h, ?_, ?_⟩, fun c hc => unpack_action_no_id L _ c hc⟩
  · exact set_actions_eq L g.synapses.length xs
  · have := congrArg List.length (set_actions_eq L g.synapses.length xs)
    simpa using this

/-- C3 at `example_synapse`: three of the four children of its two action
sets carry an id. -/
theorem unpack_synapse_actions_witness :
    0 ≤ refLib.crm_parse_int (ID example_synapse) none ∧
    ((∃ g1 s, unpack_synapse refLib (new_graph none) (some example_synapse) = (g1, some s) ∧
      s.actions.map some =
        (id_bearing_action_elements example_synapse).map
          (unpack_action refLib (new_graph none).synapses.length) ∧
      s.actions.length = (id_bearing_action_elements example_synapse).length) ∧
    ∀ c, ID c = none → unpack_action refLib (new_graph none).synapses.length c = none) :=
  ⟨by decide, unpack_synapse_actions refLib (new_graph none) example_synapse (by decide)⟩

/-- The elements the loop of `unpack_graph` keeps, in the words of C4. -/
theorem accepted_ids_eq (L : Lib) (xs : List XmlNode) :
    ((xs.filter (accepted L)).map fun c => L.crm_parse_int (ID c) none) =
      (((xs.filter fun c => c.name == "synapse").map
        fun c => L.crm_parse_int (ID c) none).filter fun i => decide (0 ≤ i)) := by
  induction xs with
  | nil => rfl
  | cons x xs ih =>
    by_cases hn : (x.name == "synapse") = true
    · by_cases hi : 0 ≤ L.crm_parse_int (ID x) none
      · simp [List.filter_cons, accepted, crm_str_eq, hn, hi, ih]
      · simp [List.filter_cons, accepted, crm_str_eq, hn, hi, ih]
    · simp [List.filter_cons, accepted, crm_str_eq, hn, ih]

/-- C4: for every document root for which `unpack_graph` returns a graph,
the ids of its synapses, in order, are the parsed ids of the root's children
named `synapse` that are not negative, in document order; children of any
other name give no synapse. -/
theorem unpack_graph_synapse_order (L : Lib) (xml_graph : Option XmlNode)
    (reference : Option String) (G : crm_graph_t)
    (h : unpack_graph L xml_graph reference = some G) :
    (G.synapses.map fun s => s.id) = synapse_element_ids L xml_graph := by
  obtain ⟨g, hs, _, _, _, hG⟩ := unpack_graph_shape L xml_graph reference G h
  subst hG
  rw [synapse_fold_ids, hs, accepted_ids_eq]
  rfl

/-- C4 at `example_document`: the ids are 1 and 0. -/
theorem unpack_graph_synapse_order_witness :
    unpack_graph refLib (some example_document) none = some example_graph ∧
      (example_graph.synapses.map fun s => s.id) =
        synapse_element_ids refLib (some example_document) :=
  ⟨rfl, unpack_graph_synapse_order refLib (some example_document) none example_graph rfl⟩

/-- C5: for a document root that is present, `unpack_graph` returns no graph
exactly when the root has no `transition_id` attribute or no `cluster-delay`
attribute; whatever else the document holds, a graph is returned. -/
theorem unpack_graph_none_iff (L : Lib) (root : XmlNode) (reference : Option String) :
    unpack_graph L (some root) reference = none ↔
      (crm_element_value root "transition_id" = none ∨
        crm_element_value root "cluster-delay" = none) := by
  cases ht : crm_element_value root "transition_id" with
  | none => simp [unpack_graph, unpack_graph_attrs, ht]
  | some t =>
    cases hc : crm_element_value root "cluster-delay" with
    | none => simp [unpack_graph, unpack_graph_attrs, ht, hc]
    | some c => simp [unpack_graph, unpack_graph_attrs, ht, hc]

/-- The synapses the loop of `unpack_graph` appends have ids that are not
negative. -/
theorem synapse_fold_nonneg (L : Lib) (xs : List XmlNode) (g : crm_graph_t)
    (hg : ∀ s ∈ g.synapses, 0 ≤ s.id) :
    ∀ s ∈ (xs.foldl (synapse_step L) g).synapses, 0 ≤ s.id := by
  apply synapse_fold_inv L (fun g => ∀ s ∈ g.synapses, 0 ≤ s.id) _ xs g hg
  intro g x hg
  rw [synapse_step_eq]
  by_cases ha : accepted L x = true
  · have hid : 0 ≤ L.crm_parse_int (ID x) none := by
      simp [accepted] at ha
      exact ha.2
    simp only [ha, if_true]
    intro s hs
    rcases List.mem_append.1 hs with h1 | h1
    · exact hg s h1
    · rw [List.mem_singleton] at h1
      subst h1
      simpa [new_synapse] using hid
  · simpa [ha] using hg

/-- The loop of `unpack_graph` appends one synapse for each accepted
element. -/
theorem synapse_fold_length (L : Lib) (xs : List XmlNode) (g : crm_graph_t) :
    (xs.foldl (synapse_step L) g).synapses.length =
      g.synapses.length + (xs.filter (accepted L)).length := by
  have h := congrArg List.length (synapse_fold_ids L xs g)
  simpa using h

/-- C10: every synapse of a graph returned by `unpack_graph` has an id that
is not negative; `unpack_synapse` returns no synapse, and leaves the graph as
it was, for an element whose parsed id is negative; and the graph holds one
synapse for each child of the root named `synapse` whose parsed id is not
negative, none for the others. -/
theorem unpack_graph_synapse_ids_nonneg (L : Lib) (xml_graph : Option XmlNode)
    (reference : Option String) (G : crm_graph_t)
    (h : unpack_graph L xml_graph reference = some G) :
    (∀ s ∈ G.synapses, 0 ≤ s.id) ∧
    (∀ g xs, L.crm_parse_int (ID xs) none < 0 → unpack_synapse L g (some xs) = (g, none)) ∧
    G.synapses.length = (kept_synapse_elements L xml_graph).length := by
  obtain ⟨g, hs, _, _, _, hG⟩ := unpack_graph_shape L xml_graph reference G h
  subst hG
  have hg : ∀ s ∈ g.synapses, 0 ≤ s.id := by
    intro s hmem
    rw [hs] at hmem
    cases hmem
  refine ⟨synapse_fold_nonneg L (xml_children xml_graph) g hg,
    fun g xs hneg => unpack_synapse_reject L g xs hneg, ?_⟩
  rw [synapse_fold_length, hs, List.length_nil, Nat.zero_add]
  rfl

/-- C10 at `example_document`, whose second child is a synapse element with
id -2. -/
theorem unpack_graph_synapse_ids_nonneg_witness :
    unpack_graph refLib (some example_document) none = some example_graph ∧
    ((∀ s ∈ example_graph.synapses, 0 ≤ s.id) ∧
    (∀ g xs, refLib.crm_parse_int (ID xs) none < 0 →
      unpack_synapse refLib g (some xs) = (g, none)) ∧
    example_graph.synapses.length =
      (kept_synapse_elements refLib (some example_document)).length) :=
  ⟨rfl, unpack_graph_synapse_ids_nonneg refLib (some example_document) none example_graph rfl⟩

/-- A value in the range of an `int` is left as it is. -/
theorem int_wrap_of_range (x : Int) (h1 : INT_MIN ≤ x) (h2 : x ≤ INT_MAX) : int_wrap x = x := by
  unfold int_wrap
  unfold INT_MIN at h1
  unfold INT_MAX at h2
  omega

/-- C6 as stated fails: with `CRM_meta_timeout` 2147483647 and
`CRM_meta_start_delay` 1 the timeout of the action built is -2147483648,
not the sum 2147483648. -/
theorem unpack_action_timeout_sum_overflow :
    ID example_overflow_op = some "42" ∧
    g_hash_table_lookup (refLib.xml2list (copy_xml example_overflow_op)) "CRM_meta_timeout" =
      some "2147483647" ∧
    refLib.crm_parse_int (some "2147483647") none = 2147483647 ∧
    g_hash_table_lookup (refLib.xml2list (copy_xml example_overflow_op))
      "CRM_meta_start_delay" = some "1" ∧
    refLib.crm_parse_int (some "1") none = 1 ∧
    (unpack_action refLib 0 example_overflow_op).map (fun a => a.timeout) =
      some (-2147483648) ∧
    (unpack_action refLib 0 example_overflow_op).map (fun a => a.timeout) ≠
      some (2147483647 + 1) := by
  decide

/-- C6, amended: for every action element with an id whose flattened
parameters hold `CRM_meta_timeout` with integer value t and
`CRM_meta_start_delay` with integer value d, where t + d lies in the range of
an `int`, the action built by `unpack_action` has timeout t + d. -/
theorem unpack_action_timeout_sum (L : Lib) (parent : SynapseRef) (xml_action : XmlNode)
    (v vt vd : String) (hid : ID xml_action = some v)
    (ht : g_hash_table_lookup (L.xml2list (copy_xml xml_action)) "CRM_meta_timeout" = some vt)
    (hd : g_hash_table_lookup (L.xml2list (copy_xml xml_action)) "CRM_meta_start_delay" =
      some vd)
    (hlo : INT_MIN ≤ L.crm_parse_int (some vt) none + L.crm_parse_int (some vd) none)
    (hhi : L.crm_parse_int (some vt) none + L.crm_parse_int (some vd) none ≤ INT_MAX) :
    ∃ a, unpack_action L parent xml_action = some a ∧
      a.timeout = L.crm_parse_int (some vt) none + L.crm_parse_int (some vd) none := by
  unfold ID at hid
  refine ⟨_, by simp only [unpack_action, hid]; rfl, ?_⟩
  simp only [ht, hd]
  split <;> split <;> (try split) <;> simp [int_wrap_of_range _ hlo hhi]

/-- The amended C6 at an action with timeout 5000 and start delay 2000. -/
theorem unpack_action_timeout_sum_witness :
    ID (example_rsc_op "42" "5000" "2000") = some "42" ∧
    g_hash_table_lookup (refLib.xml2list (copy_xml (example_rsc_op "42" "5000" "2000")))
      "CRM_meta_timeout" = some "5000" ∧
    g_hash_table_lookup (refLib.xml2list (copy_xml (example_rsc_op "42" "5000" "2000")))
      "CRM_meta_start_delay" = some "2000" ∧
    INT_MIN ≤ refLib.crm_parse_int (some "5000") none + refLib.crm_parse_int (some "2000") none ∧
    refLib.crm_parse_int (some "5000") none + refLib.crm_parse_int (some "2000") none ≤
      INT_MAX ∧
    ∃ a, unpack_action refLib 0 (example_rsc_op "42" "5000" "2000") = some a ∧
      a.timeout = refLib.crm_parse_int (some "5000") none +
        refLib.crm_parse_int (some "2000") none :=
  ⟨by decide, by decide, by decide, by decide, by decide,
    unpack_action_timeout_sum refLib 0 (example_rsc_op "42" "5000" "2000") "42" "5000" "2000"
      (by decide) (by decide) (by decide) (by decide) (by decide)⟩

/-- The loop over the history computes a running maximum. -/
theorem call_id_fold (L : Lib) (xs : List XmlNode) (c : Int) :
    xs.foldl (call_id_step L) c = (xs.map (call_id_attr L)).foldl max c := by
  induction xs generalizing c with
  | nil => rfl
  | cons x xs ih =>
    rw [List.foldl_cons, ih, List.map_cons, List.foldl_cons]
    congr 1
    unfold call_id_step call_id_attr
    cases L.crm_element_value_int x XML_LRM_ATTR_CALLID with
    | none =>
      simp only
      split <;> omega
    | some v =>
      simp only
      split <;> omega

/-- A running maximum stays between its start and any bound on the values. -/
theorem foldl_max_bounds (vs : List Int) (c b : Int) (hc : c < b) (hv : ∀ v ∈ vs, v < b) :
    c ≤ vs.foldl max c ∧ vs.foldl max c < b := by
  induction vs generalizing c with
  | nil => exact ⟨le_refl c, hc⟩
  | cons v vs ih =>
    have hvb : v < b := hv v (List.mem_cons_self v vs)
    have hrest : ∀ w ∈ vs, w < b := fun w hw => hv w (List.mem_cons_of_mem v hw)
    obtain ⟨h1, h2⟩ := ih (max c v) (max_lt hc hvb) hrest
    exact ⟨le_trans (le_max_left c v) h1, h2⟩

/-- The event record `convert_graph_action` returns carries the wrapped
successor of the running maximum over the history. -/
theorem convert_call_id (L : Lib) (resource : Option XmlNode) (action : Option crm_action_t)
    (status rc : Int) (op : lrmd_event_data_t)
    (h : convert_graph_action L resource action status rc = Except.ok (some op)) :
    op.call_id = int_wrap (((xml_children resource).map (call_id_attr L)).foldl max 0 + 1) := by
  unfold convert_graph_action at h
  rw [← call_id_fold]
  split at h
  · cases h
  · split at h
    · cases h
    · split at h
      · cases h
      · split at h
        · cases h
        · split at h
          · cases h
          · split at h
            · cases h
            · simp only [Except.ok.injEq, Option.some.injEq] at h
              rw [← h]

/-- C7 as stated fails: against a history whose only entry has call-id -1
the event gets call id 1, while 1 + the maximum of the call-ids is 0. -/
theorem convert_call_id_negative_history :
    event_call_id (convert_graph_action refLib (some example_history_negative)
      example_action 0 0) = some 1 ∧
    (xml_children (some example_history_negative)).map (call_id_attr refLib) = [-1] ∧
    claimed_call_id refLib (some example_history_negative) = 0 := by
  decide

/-- C7, amended: for every history, action, status and return code for which
`convert_graph_action` returns an event, its call id is 1 + the maximum of 0
and the call-id values of the children of the history (an absent or
non-integer call-id counting as 0), as long as every call-id is below the
largest `int`; with a history without children the call id is 1. -/
theorem convert_call_id_floored (L : Lib) (resource : Option XmlNode)
    (action : Option crm_action_t) (status rc : Int) (op : lrmd_event_data_t)
    (h : convert_graph_action L resource action status rc = Except.ok (some op))
    (hb : ∀ c ∈ xml_children resource, call_id_attr L c < INT_MAX) :
    op.call_id = floored_call_id L resource ∧
      (xml_children resource = [] → op.call_id = 1) := by
  have hv : ∀ v ∈ (xml_children resource).map (call_id_attr L), v < INT_MAX := by
    intro v hmem
    obtain ⟨c, hc, rfl⟩ := List.mem_map.1 hmem
    exact hb c hc
  obtain ⟨h1, h2⟩ := foldl_max_bounds _ 0 INT_MAX (by decide) hv
  have hcall := convert_call_id L resource action status rc op h
  have hwrap : int_wrap (((xml_children resource).map (call_id_attr L)).foldl max 0 + 1) =
      ((xml_children resource).map (call_id_attr L)).foldl max 0 + 1 := by
    apply int_wrap_of_range
    · unfold INT_MIN
      omega
    · unfold INT_MAX at h2 ⊢
      omega
  rw [hwrap] at hcall
  refine ⟨by rw [hcall, floored_call_id]; omega, ?_⟩
  intro hnil
  rw [hcall, hnil]
  rfl

/-- The amended C7 at a history with call-ids 3, 7 and 5: the call id is 8. -/
theorem convert_call_id_floored_witness :
    convert_graph_action refLib (some example_history) example_action 0 0 =
      Except.ok (some example_event) ∧
    (∀ c ∈ xml_children (some example_history), call_id_attr refLib c < INT_MAX) ∧
    (example_event.call_id = floored_call_id refLib (some example_history) ∧
      (xml_children (some example_history) = [] → example_event.call_id = 1)) :=
  ⟨rfl, by decide,
    convert_call_id_floored refLib (some example_history) example_action 0 0 example_event rfl
      (by decide)⟩

/-- C8: `convert_graph_action` returns no event record when the action is
absent, when its type is not rsc, and when its xml has no child element named
as the resource tag, whatever the history, status and return code. -/
theorem convert_graph_action_refuses (L : Lib) (resource : Option XmlNode)
    (action : Option crm_action_t) (status rc : Int)
    (h : action = none ∨ ∃ a, action = some a ∧
      (a.type ≠ action_type_e.action_type_rsc ∨
        ∀ c ∈ xml_children a.xml, c.name ≠ XML_CIB_TAG_RESOURCE)) :
    convert_graph_action L resource action status rc = Except.ok none := by
  rcases h with h | ⟨a, h, hty | hch⟩
  · subst h
    rfl
  · subst h
    simp [convert_graph_action, hty]
  · subst h
    have hnone : first_named_child a.xml XML_CIB_TAG_RESOURCE = none := by
      unfold first_named_child
      cases hx : a.xml with
      | none => rfl
      | some p =>
        rw [hx] at hch
        simp only [List.find?_eq_none]
        intro c hc
        simpa using hch c hc
    unfold convert_graph_action
    simp only [hnone]
    split <;> rfl

/-- C8 at an action of type pseudo that does have a resource child. -/
theorem convert_graph_action_refuses_witness :
    (example_pseudo_action = none ∨ ∃ a, example_pseudo_action = some a ∧
      (a.type ≠ action_type_e.action_type_rsc ∨
        ∀ c ∈ xml_children a.xml, c.name ≠ XML_CIB_TAG_RESOURCE)) ∧
    convert_graph_action refLib (some example_history) example_pseudo_action 0 0 =
      Except.ok none :=
  ⟨Or.inr ⟨_, rfl, Or.inl (by decide)⟩,
    convert_graph_action_refuses refLib (some example_history) example_pseudo_action 0 0
      (Or.inr ⟨_, rfl, Or.inl (by decide)⟩)⟩

/-- The type of the action `unpack_action` builds is decided by the chain on
the element name alone. -/
theorem unpack_action_type_eq (L : Lib) (parent : SynapseRef) (xml_action : XmlNode)
    (a : crm_action_t) (h : unpack_action L parent xml_action = some a) :
    a.type = action_type_of L (crm_element_name (copy_xml xml_action))
      action_type_e.action_type_rsc := by
  unfold unpack_action at h
  split at h
  · cases h
  · simp only [Option.some.injEq] at h
    rw [← h]
    repeat' (first | rfl | split)

/-- C9 as stated fails: with `safe_str_eq` comparing without regard to
letter case, an element named `PSEUDO_EVENT`, which is none of `rsc_op`,
`pseudo_event` and `crm_event`, gives an action of type pseudo, not rsc. -/
theorem unpack_action_type_upper_case :
    ID example_upper_case_event = some "43" ∧
    example_upper_case_event.name ≠ "rsc_op" ∧
    example_upper_case_event.name ≠ "pseudo_event" ∧
    example_upper_case_event.name ≠ "crm_event" ∧
    (unpack_action ignoreCaseLib 0 example_upper_case_event).map (fun a => a.type) =
      some action_type_e.action_type_pseudo := by
  decide

/-- Two words that differ beyond letter case are not case variants of the
same text. -/
theorem case_variant_exclusive (s w1 w2 : String) (h1 : case_variant s w1)
    (hne : w1.toList.map Char.toLower ≠ w2.toList.map Char.toLower) : ¬ case_variant s w2 := by
  unfold case_variant at h1 ⊢
  rw [h1]
  exact hne

/-- C9, amended: for every action element with an id, the type of the action
`unpack_action` builds is fixed by comparing the element name with
`safe_str_eq`: rsc when it matches `rsc_op`, otherwise pseudo when it matches
`pseudo_event`, otherwise crm when it matches `crm_event`, and rsc when it
matches none. With `safe_str_eq` comparing without regard to letter case,
every case variant of `pseudo_event` gives pseudo, of `crm_event` crm, of
`rsc_op` rsc, and a name that is a case variant of none of the three gives
rsc. -/
theorem unpack_action_type (L : Lib) (parent : SynapseRef) (xml_action : XmlNode)
    (v : String) (hid : ID xml_action = some v) :
    ∃ a, unpack_action L parent xml_action = some a ∧
      a.type =
        (if L.safe_str_eq xml_action.name "rsc_op" then action_type_e.action_type_rsc
        else if L.safe_str_eq xml_action.name "pseudo_event" then
          action_type_e.action_type_pseudo
        else if L.safe_str_eq xml_action.name "crm_event" then action_type_e.action_type_crm
        else action_type_e.action_type_rsc) ∧
      ((∀ s w, L.safe_str_eq s w = true ↔ case_variant s w) →
        (case_variant xml_action.name "pseudo_event" →
          a.type = action_type_e.action_type_pseudo) ∧
        (case_variant xml_action.name "crm_event" → a.type = action_type_e.action_type_crm) ∧
        (case_variant xml_action.name "rsc_op" → a.type = action_type_e.action_type_rsc) ∧
        (¬ case_variant xml_action.name "rsc_op" →
          ¬ case_variant xml_action.name "pseudo_event" →
          ¬ case_variant xml_action.name "crm_event" →
          a.type = action_type_e.action_type_rsc)) := by
  have hsome : (unpack_action L parent xml_action).isSome = true := by
    rw [unpack_action_isSome, hid]
    rfl
  obtain ⟨a, ha⟩ := Option.isSome_iff_exists.1 hsome
  have hty := unpack_action_type_eq L parent xml_action a ha
  simp only [action_type_of, crm_element_name, copy_xml, XML_GRAPH_TAG_RSC_OP,
    XML_GRAPH_TAG_PSEUDO_EVENT, XML_GRAPH_TAG_CRM_EVENT] at hty
  refine ⟨a, ha, hty, fun hs => ⟨?_, ?_, ?_, ?_⟩⟩
  · intro hp
    have h1 : ¬ L.safe_str_eq xml_action.name "rsc_op" = true := fun h =>
      case_variant_exclusive _ _ _ hp (by decide) ((hs _ _).1 h)
    rw [hty, if_neg h1, if_pos ((hs _ _).2 hp)]
  · intro hc
    have h1 : ¬ L.safe_str_eq xml_action.name "rsc_op" = true := fun h =>
      case_variant_exclusive _ _ _ hc (by decide) ((hs _ _).1 h)
    have h2 : ¬ L.safe_str_eq xml_action.name "pseudo_event" = true := fun h =>
      case_variant_exclusive _ _ _ hc (by decide) ((hs _ _).1 h)
    rw [hty, if_neg h1, if_neg h2, if_pos ((hs _ _).2 hc)]
  · intro hr
    rw [hty, if_pos ((hs _ _).2 hr)]
  · intro h1 h2 h3
    have n1 : ¬ L.safe_str_eq xml_action.name "rsc_op" = true := fun h => h1 ((hs _ _).1 h)
    have n2 : ¬ L.safe_str_eq xml_action.name "pseudo_event" = true := fun h =>
      h2 ((hs _ _).1 h)
    have n3 : ¬ L.safe_str_eq xml_action.name "crm_event" = true := fun h => h3 ((hs _ _).1 h)
    rw [hty, if_neg n1, if_neg n2, if_neg n3]

/-- The amended C9 at an element named `notify_op`, which defaults to rsc,
with the library that ignores letter case. -/
theorem unpack_action_type_witness :
    ID example_unknown_op = some "45" ∧
    (∀ s w, ignoreCaseLib.safe_str_eq s w = true ↔ case_variant s w) ∧
    (unpack_action ignoreCaseLib 0 example_unknown_op).map (fun a => a.type) =
      some action_type_e.action_type_rsc ∧
    ∃ a, unpack_action ignoreCaseLib 0 example_unknown_op = some a ∧
      a.type =
        (if ignoreCaseLib.safe_str_eq example_unknown_op.name "rsc_op" then
          action_type_e.action_type_rsc
        else if ignoreCaseLib.safe_str_eq example_unknown_op.name "pseudo_event" then
          action_type_e.action_type_pseudo
        else if ignoreCaseLib.safe_str_eq example_unknown_op.name "crm_event" then
          action_type_e.action_type_crm
        else action_type_e.action_type_rsc) ∧
      ((∀ s w, ignoreCaseLib.safe_str_eq s w = true ↔ case_variant s w) →
        (case_variant example_unknown_op.name "pseudo_event" →
          a.type = action_type_e.action_type_pseudo) ∧
        (case_variant example_unknown_op.name "crm_event" →
          a.type = action_type_e.action_type_crm) ∧
        (case_variant example_unknown_op.name "rsc_op" →
          a.type = action_type_e.action_type_rsc) ∧
        (¬ case_variant example_unknown_op.name "rsc_op" →
          ¬ case_variant example_unknown_op.name "pseudo_event" →
          ¬ case_variant example_unknown_op.name "crm_event" →
          a.type = action_type_e.action_type_rsc)) :=
  ⟨by decide, fun s w => by simp [ignoreCaseLib, case_variant], by decide,
    unpack_action_type ignoreCaseLib 0 example_unknown_op "45" (by decide)⟩

/-- The action `unpack_action` builds keeps the element and takes its id
from the id attribute. -/
theorem unpack_action_id (L : Lib) (parent : SynapseRef) (xml_action : XmlNode)
    (a : crm_action_t) (h : unpack_action L parent xml_action = some a) :
    id_from_attribute L a := by
  unfold unpack_action at h
  split at h
  · cases h
  · rename_i value hv
    refine ⟨xml_action, value, ?_, hv, ?_⟩
    · simp only [Option.some.injEq] at h
      rw [← h]
      repeat' (first | rfl | split)
    · simp only [Option.some.injEq] at h
      rw [← h]
      repeat' (first | rfl | split)

/-- Every action of the first loop of `unpack_synapse` comes out of
`unpack_action`. -/
theorem mem_set_actions (L : Lib) (self : SynapseRef) (cs : List XmlNode) (a : crm_action_t)
    (h : a ∈ set_actions L self cs) : ∃ c, unpack_action L self c = some a := by
  unfold set_actions at h
  obtain ⟨s, _, hs⟩ := List.mem_flatMap.1 h
  obtain ⟨c, _, hc⟩ := List.mem_filterMap.1 hs
  exact ⟨c, hc⟩

/-- Every action of the second loop of `unpack_synapse` comes out of
`unpack_action`. -/
theorem mem_input_actions (L : Lib) (self : SynapseRef) (cs : List XmlNode) (a : crm_action_t)
    (h : a ∈ input_actions L self cs) : ∃ c, unpack_action L self c = some a := by
  unfold input_actions at h
  obtain ⟨i, _, hi⟩ := List.mem_flatMap.1 h
  obtain ⟨t, _, ht⟩ := List.mem_flatMap.1 hi
  obtain ⟨c, _, hc⟩ := List.mem_filterMap.1 ht
  exact ⟨c, hc⟩

/-- C11 as stated fails: from action elements with ids "0", "-3" and "abc"
and an input with id "-7" the graph holds actions with ids 0, -3 and 0 and an
input with id -7; none of them is positive. -/
theorem unpack_graph_nonpositive_action_ids :
    action_ids (unpack_graph refLib (some example_nonpositive_document) none) =
      some [([0, -3, 0], [-7])] ∧
    (unpack_graph refLib (some example_nonpositive_document) none).map all_action_ids_positive =
      some false := by
  decide

/-- C11, amended: for every graph returned by `unpack_graph`, every action
in the actions and inputs of every synapse was built from an element that
carries an id attribute, and its id is the integer `crm_parse_int` reads from
that attribute, whatever its sign. -/
theorem unpack_graph_action_ids (L : Lib) (xml_graph : Option XmlNode)
    (reference : Option String) (G : crm_graph_t)
    (h : unpack_graph L xml_graph reference = some G) :
    ∀ s ∈ G.synapses, ∀ a ∈ s.actions ++ s.inputs, id_from_attribute L a := by
  obtain ⟨g, hs, _, _, _, hG⟩ := unpack_graph_shape L xml_graph reference G h
  subst hG
  apply synapse_fold_inv L
    (fun g => ∀ s ∈ g.synapses, ∀ a ∈ s.actions ++ s.inputs, id_from_attribute L a)
  · intro g x hg
    rw [synapse_step_eq]
    by_cases hacc : accepted L x = true
    · simp only [hacc, if_true]
      intro s hmem a ha
      rcases List.mem_append.1 hmem with h1 | h1
      · exact hg s h1 a ha
      · rw [List.mem_singleton] at h1
        subst h1
        rcases List.mem_append.1 ha with h2 | h2
        · obtain ⟨c, hc⟩ := mem_set_actions L _ _ a h2
          exact unpack_action_id L _ c a hc
        · obtain ⟨c, hc⟩ := mem_input_actions L _ _ a h2
          exact unpack_action_id L _ c a hc
    · simpa [hacc] using hg
  · intro s hmem
    rw [hs] at hmem
    cases hmem

/-- The amended C11 at `example_document`. -/
theorem unpack_graph_action_ids_witness :
    unpack_graph refLib (some example_document) none = some example_graph ∧
      ∀ s ∈ example_graph.synapses, ∀ a ∈ s.actions ++ s.inputs, id_from_attribute refLib a :=
  ⟨rfl, unpack_graph_action_ids refLib (some example_document) none example_graph rfl⟩

/-- C12: when the document root is absent, `unpack_graph` returns the graph
with id -1, no synapses, both counters 0, abort priority 0, network delay 0,
stonith timeout 0 and completion action done, whose source is the provenance
string when one is supplied and "unknown" otherwise. -/
theorem unpack_graph_absent_root (L : Lib) (reference : Option String) :
    unpack_graph L none reference =
      some
        { id := -1
          source := reference.getD "unknown"
          abort_priority := 0
          completion_action := transition_action.tg_done
          num_actions := 0
          num_synapses := 0
          batch_limit := 0
          network_delay := 0
          stonith_timeout := 0
          synapses := []
          migration_limit := 0 } := by
  cases reference <;> rfl

/-- What the attribute block of `unpack_graph` returns for a root that has
both required attributes. -/
theorem unpack_graph_attrs_eq (L : Lib) (g : crm_graph_t) (x : XmlNode) (t c : String)
    (ht : crm_element_value x "transition_id" = some t)
    (hc : crm_element_value x "cluster-delay" = some c) :
    unpack_graph_attrs L g x = some (graph_of_attrs L g x t c) := by
  unfold unpack_graph_attrs graph_of_attrs
  cases hs : crm_element_value x "stonith-timeout" <;> simp [ht, hc]

/-- The loop of `unpack_graph` changes only the counters and the synapses. -/
theorem synapse_fold_frame (L : Lib) (xs : List XmlNode) (g : crm_graph_t) :
    (xs.foldl (synapse_step L) g).id = g.id ∧
    (xs.foldl (synapse_step L) g).source = g.source ∧
    (xs.foldl (synapse_step L) g).abort_priority = g.abort_priority ∧
    (xs.foldl (synapse_step L) g).completion_action = g.completion_action ∧
    (xs.foldl (synapse_step L) g).batch_limit = g.batch_limit ∧
    (xs.foldl (synapse_step L) g).network_delay = g.network_delay ∧
    (xs.foldl (synapse_step L) g).stonith_timeout = g.stonith_timeout ∧
    (xs.foldl (synapse_step L) g).migration_limit = g.migration_limit := by
  apply synapse_fold_inv L
    (fun g1 => g1.id = g.id ∧ g1.source = g.source ∧ g1.abort_priority = g.abort_priority ∧
      g1.completion_action = g.completion_action ∧ g1.batch_limit = g.batch_limit ∧
      g1.network_delay = g.network_delay ∧ g1.stonith_timeout = g.stonith_timeout ∧
      g1.migration_limit = g.migration_limit)
  · intro g1 x h1
    rw [synapse_step_eq]
    by_cases hacc : accepted L x = true
    · simpa [hacc] using h1
    · simpa [hacc] using h1
  · exact ⟨rfl, rfl, rfl, rfl, rfl, rfl, rfl, rfl⟩

/-- The graph `unpack_graph` returns for a root that has both required
attributes: the loop run on the graph of the attribute block. -/
theorem unpack_graph_present (L : Lib) (root : XmlNode) (reference : Option String)
    (t c : String) (ht : crm_element_value root "transition_id" = some t)
    (hc : crm_element_value root "cluster-delay" = some c) :
    unpack_graph L (some root) reference =
      some (root.children.foldl (synapse_step L)
        (graph_of_attrs L (new_graph reference) root t c)) := by
  simp [unpack_graph, unpack_graph_attrs_eq L _ root t c ht hc, xml_children]

/-- A graph returned for a root that is present comes from a root with both
required attributes. -/
theorem unpack_graph_present_inv (L : Lib) (root : XmlNode) (reference : Option String)
    (G : crm_graph_t) (h : unpack_graph L (some root) reference = some G) :
    ∃ t c, crm_element_value root "transition_id" = some t ∧
      crm_element_value root "cluster-delay" = some c ∧
      G = root.children.foldl (synapse_step L)
        (graph_of_attrs L (new_graph reference) root t c) := by
  cases ht : crm_element_value root "transition_id" with
  | none => simp [unpack_graph, unpack_graph_attrs, ht] at h
  | some t =>
    cases hc : crm_element_value root "cluster-delay" with
    | none => simp [unpack_graph, unpack_graph_attrs, ht, hc] at h
    | some c =>
      rw [unpack_graph_present L root reference t c ht hc] at h
      exact ⟨t, c, rfl, rfl, (Option.some.inj h).symm⟩

/-- C14: for every root that has `transition_id` and `cluster-delay`, the
graph returned has `batch_limit` 0 when the root has no `batch-limit`
attribute and `migration_limit` -1 when it has no `migration-limit`
attribute; `crm_parse_int` is taken to read its default texts "0" and "-1" as
0 and -1. -/
theorem unpack_graph_limit_defaults (L : Lib) (h0 : L.crm_parse_int none (some "0") = 0)
    (h1 : L.crm_parse_int none (some "-1") = -1) (root : XmlNode) (reference : Option String)
    (t c : String) (ht : crm_element_value root "transition_id" = some t)
    (hc : crm_element_value root "cluster-delay" = some c) :
    ∃ G, unpack_graph L (some root) reference = some G ∧
      (crm_element_value root "batch-limit" = none → G.batch_limit = 0) ∧
      (crm_element_value root "migration-limit" = none → G.migration_limit = -1) := by
  refine ⟨_, unpack_graph_present L root reference t c ht hc, ?_, ?_⟩
  · intro hb
    obtain ⟨_, _, _, _, h5, _, _, _⟩ :=
      synapse_fold_frame L root.children (graph_of_attrs L (new_graph reference) root t c)
    rw [h5]
    simp [graph_of_attrs, hb, h0]
  · intro hm
    obtain ⟨_, _, _, _, _, _, _, h8⟩ :=
      synapse_fold_frame L root.children (graph_of_attrs L (new_graph reference) root t c)
    rw [h8]
    simp [graph_of_attrs, hm, h1]

/-- C14 at the minimal root of scenario S1. -/
theorem unpack_graph_limit_defaults_witness :
    refLib.crm_parse_int none (some "0") = 0 ∧
    refLib.crm_parse_int none (some "-1") = -1 ∧
    crm_element_value example_minimal_root "transition_id" = some "7" ∧
    crm_element_value example_minimal_root "cluster-delay" = some "30s" ∧
    ∃ G, unpack_graph refLib (some example_minimal_root) none = some G ∧
      (crm_element_value example_minimal_root "batch-limit" = none → G.batch_limit = 0) ∧
      (crm_element_value example_minimal_root "migration-limit" = none →
        G.migration_limit = -1) :=
  ⟨by decide, by decide, by decide, by decide,
    unpack_graph_limit_defaults refLib (by decide) (by decide) example_minimal_root none
      "7" "30s" (by decide) (by decide)⟩

/-- The source of a graph returned by `unpack_graph`. -/
theorem unpack_graph_source_eq (L : Lib) (xml_graph : Option XmlNode)
    (reference : Option String) (G : crm_graph_t)
    (h : unpack_graph L xml_graph reference = some G) :
    G.source = reference.getD "unknown" := by
  obtain ⟨g, _, _, _, hsrc, hG⟩ := unpack_graph_shape L xml_graph reference G h
  subst hG
  rw [(synapse_fold_frame L (xml_children xml_graph) g).2.1, hsrc]
  cases reference <;> rfl

/-- C17 as stated fails: with the empty string as provenance the source of
the graph is the empty string. -/
theorem unpack_graph_empty_source :
    (unpack_graph refLib (some example_minimal_root) (some "")).map (fun g => g.source) =
      some "" ∧
    (unpack_graph refLib none (some "")).map (fun g => g.source) = some "" := by
  decide

/-- C17, amended: for every document root and provenance string for which
`unpack_graph` returns a graph, its source is the provenance string when one
is supplied and "unknown" otherwise; it is non-empty unless the provenance
string supplied is the empty string. -/
theorem unpack_graph_source (L : Lib) (xml_graph : Option XmlNode)
    (reference : Option String) (G : crm_graph_t)
    (h : unpack_graph L xml_graph reference = some G) :
    G.source = reference.getD "unknown" ∧ (reference ≠ some "" → G.source ≠ "") := by
  have hsrc := unpack_graph_source_eq L xml_graph reference G h
  refine ⟨hsrc, fun hne => ?_⟩
  rw [hsrc]
  cases reference with
  | none => decide
  | some r =>
    intro hr
    apply hne
    simpa using hr

/-- The amended C17 at `example_full_root` with a provenance string. -/
theorem unpack_graph_source_witness :
    unpack_graph refLib (some example_full_root) (some "pe-input-1") = some example_full_graph ∧
    (example_full_graph.source = (some "pe-input-1").getD "unknown" ∧
      ((some "pe-input-1" : Option String) ≠ some "" → example_full_graph.source ≠ "")) :=
  ⟨rfl, unpack_graph_source refLib (some example_full_root) (some "pe-input-1")
    example_full_graph rfl⟩

/-- C18 as stated fails: a root with `batch-limit` "-5" gives a graph whose
`batch_limit` is -5. -/
theorem unpack_graph_negative_batch_limit :
    (unpack_graph refLib (some example_negative_batch_limit) none).map
      (fun g => g.batch_limit) = some (-5) ∧
    crm_element_value example_negative_batch_limit "batch-limit" = some "-5" := by
  decide

/-- C18, amended: for every document root for which `unpack_graph` returns a
graph, its `batch_limit` is 0 when the root is absent and otherwise the
integer `crm_parse_int` reads from the `batch-limit` attribute, with default
text "0"; it is not negative exactly when that integer is not. -/
theorem unpack_graph_batch_limit (L : Lib) (xml_graph : Option XmlNode)
    (reference : Option String) (G : crm_graph_t)
    (h : unpack_graph L xml_graph reference = some G) :
    G.batch_limit = batch_limit_of L xml_graph ∧
      (0 ≤ G.batch_limit ↔ 0 ≤ batch_limit_of L xml_graph) := by
  suffices hb : G.batch_limit = batch_limit_of L xml_graph by
    exact ⟨hb, by rw [hb]⟩
  cases xml_graph with
  | none =>
    simp only [unpack_graph, xml_children, List.foldl_nil, Option.some.injEq] at h
    rw [← h]
    rfl
  | some root =>
    obtain ⟨t, c, _, _, hG⟩ := unpack_graph_present_inv L root reference G h
    subst hG
    rw [(synapse_fold_frame L root.children _).2.2.2.2.1]
    rfl

/-- The amended C18 at `example_full_root`, whose `batch-limit` is 4. -/
theorem unpack_graph_batch_limit_witness :
    unpack_graph refLib (some example_full_root) (some "pe-input-1") = some example_full_graph ∧
    (example_full_graph.batch_limit = batch_limit_of refLib (some example_full_root) ∧
      (0 ≤ example_full_graph.batch_limit ↔
        0 ≤ batch_limit_of refLib (some example_full_root))) :=
  ⟨rfl, unpack_graph_batch_limit refLib (some example_full_root) (some "pe-input-1")
    example_full_graph rfl⟩

/-- Inserting the pairs of a list whose keys are new and distinct appends
them. -/
theorem insert_fold_append (l acc : GHashTable) (h : ((acc ++ l).map Prod.fst).Nodup) :
    l.foldl (fun t p => g_hash_table_insert t p.1 p.2) acc = acc ++ l := by
  induction l generalizing acc with
  | nil => simp
  | cons p l ih =>
    have hnot : acc.any (fun q => q.1 == p.1) = false := by
      rw [List.any_eq_false]
      intro q hq heq
      have hqp : q.1 = p.1 := by simpa using heq
      rw [List.map_append, List.map_cons, List.nodup_append] at h
      exact h.2.2 (List.mem_map_of_mem Prod.fst hq) (by rw [hqp]; exact List.mem_cons_self _ _)
    have hstep : g_hash_table_insert acc p.1 p.2 = acc ++ [p] := by
      simp [g_hash_table_insert, hnot]
    rw [List.foldl_cons, hstep, ih (acc ++ [p]) (by simpa using h)]
    simp

/-- Copying a table whose keys are distinct gives the same entries. -/
theorem copy_params_eq (t : GHashTable) (h : (t.map Prod.fst).Nodup) : copy_params t = t := by
  unfold copy_params g_hash_table_new_full
  rw [insert_fold_append t [] (by simpa using h)]
  rfl

/-- C15: for every history, action, status and return code for which
`convert_graph_action` returns an event, the event has the return code and
status passed in, the interval of the action, as resource id the id of the
first resource-tag child of the action's xml, as operation type the task
attribute of the action's root element, `t_rcchange` equal to `t_run`, and
the same key/value pairs as the action's parameter table (a table holds no
key twice). -/
theorem convert_graph_action_fields (L : Lib) (resource : Option XmlNode)
    (action : Option crm_action_t) (status rc : Int) (op : lrmd_event_data_t)
    (h : convert_graph_action L resource action status rc = Except.ok (some op))
    (hk : ∀ a t, action = some a → a.params = some t → (t.map Prod.fst).Nodup) :
    ∃ a x res t, action = some a ∧ a.xml = some x ∧ a.params = some t ∧
      first_named_child (some x) XML_CIB_TAG_RESOURCE = some res ∧
      op.rc = rc ∧ op.op_status = status ∧ op.interval_ms = a.interval_ms ∧
      ID res = some op.rsc_id ∧ crm_element_value x XML_LRM_ATTR_TASK = some op.op_type ∧
      op.t_rcchange = op.t_run ∧
      (∀ k v, (k, v) ∈ op.params ↔ (k, v) ∈ t) ∧
      (∀ k, g_hash_table_lookup op.params k = g_hash_table_lookup t k) := by
  unfold convert_graph_action at h
  split at h
  · cases h
  · rename_i a
    split at h
    · cases h
    · split at h
      · cases h
      · rename_i res hres
        split at h
        · cases h
        · rename_i rsc_id hrsc
          split at h
          · cases h
          · rename_i op_type hop
            split at h
            · cases h
            · rename_i t ht
              simp only [Except.ok.injEq, Option.some.injEq] at h
              cases hx : a.xml with
              | none => simp [hx] at hop
              | some x =>
                rw [hx] at hres
                simp only [hx, Option.some_bind] at hop
                have hcopy := copy_params_eq t (hk a t rfl ht)
                refine ⟨a, x, res, t, rfl, hx, ht, hres, ?_, ?_, ?_, ?_, ?_, ?_, ?_, ?_⟩ <;>
                  rw [← h] <;> simp [hcopy, hrsc, hop]

/-- C15 at the action built from `example_can_fail_op`, with status 3 and
return code 5. -/
theorem convert_graph_action_fields_witness :
    convert_graph_action refLib (some example_history) example_can_fail_action 3 5 =
      Except.ok (some example_can_fail_event) ∧
    (∀ a t, example_can_fail_action = some a → a.params = some t →
      (t.map Prod.fst).Nodup) ∧
    ∃ a x res t, example_can_fail_action = some a ∧ a.xml = some x ∧ a.params = some t ∧
      first_named_child (some x) XML_CIB_TAG_RESOURCE = some res ∧
      example_can_fail_event.rc = 5 ∧ example_can_fail_event.op_status = 3 ∧
      example_can_fail_event.interval_ms = a.interval_ms ∧
      ID res = some example_can_fail_event.rsc_id ∧
      crm_element_value x XML_LRM_ATTR_TASK = some example_can_fail_event.op_type ∧
      example_can_fail_event.t_rcchange = example_can_fail_event.t_run ∧
      (∀ k v, (k, v) ∈ example_can_fail_event.params ↔ (k, v) ∈ t) ∧
      (∀ k, g_hash_table_lookup example_can_fail_event.params k = g_hash_table_lookup t k) :=
  ⟨rfl,
    fun a t ha ht => by
      cases ha
      cases ht
      decide,
    convert_graph_action_fields refLib (some example_history) example_can_fail_action 3 5
      example_can_fail_event rfl
      (fun a t ha ht => by
        cases ha
        cases ht
        decide)⟩

/-- The `can_fail` flag of the action `unpack_action` builds. -/
theorem unpack_action_can_fail_eq (L : Lib) (parent : SynapseRef) (xml_action : XmlNode)
    (a : crm_action_t) (h : unpack_action L parent xml_action = some a) :
    a.can_fail = can_fail_of L (L.xml2list (copy_xml xml_action)) := by
  unfold unpack_action at h
  split at h
  · cases h
  · simp only [Option.some.injEq] at h
    rw [← h]
    unfold can_fail_of
    cases hl : g_hash_table_lookup (L.xml2list (copy_xml xml_action)) "CRM_meta_can_fail" with
    | none =>
      simp only
      repeat' (first | rfl | split)
    | some v =>
      cases hb : L.crm_str_to_boolean v with
      | none =>
        simp only [hb]
        repeat' (first | rfl | split)
      | some b =>
        simp only [hb]

/-- C16: for every action element with an id, the action `unpack_action`
builds has `can_fail` false when `CRM_meta_can_fail` is not among its
parameters, true when its value is a case variant of true, yes, on or 1, and
false when it is a case variant of false, no, off or 0; `crm_str_to_boolean`
is the one modelled from the spec. -/
theorem unpack_action_can_fail (L : Lib) (hb : L.crm_str_to_boolean = ref_crm_str_to_boolean)
    (parent : SynapseRef) (xml_action : XmlNode) (v : String) (hid : ID xml_action = some v) :
    ∃ a, unpack_action L parent xml_action = some a ∧
      (g_hash_table_lookup (L.xml2list (copy_xml xml_action)) "CRM_meta_can_fail" = none →
        a.can_fail = false) ∧
      (∀ s, g_hash_table_lookup (L.xml2list (copy_xml xml_action)) "CRM_meta_can_fail" =
          some s →
        (case_variant s "true" ∨ case_variant s "yes" ∨ case_variant s "on" ∨
          case_variant s "1") → a.can_fail = true) ∧
      (∀ s, g_hash_table_lookup (L.xml2list (copy_xml xml_action)) "CRM_meta_can_fail" =
          some s →
        (case_variant s "false" ∨ case_variant s "no" ∨ case_variant s "off" ∨
          case_variant s "0") → a.can_fail = false) := by
  have hsome : (unpack_action L parent xml_action).isSome = true := by
    rw [unpack_action_isSome, hid]
    rfl
  obtain ⟨a, ha⟩ := Option.isSome_iff_exists.1 hsome
  have hcf := unpack_action_can_fail_eq L parent xml_action a ha
  refine ⟨a, ha, ?_, ?_, ?_⟩
  · intro hl
    rw [hcf, can_fail_of, hl]
  · intro s hl hv
    have ht : "true".toList.map Char.toLower = "true".toList := by decide
    have hy : "yes".toList.map Char.toLower = "yes".toList := by decide
    have ho : "on".toList.map Char.toLower = "on".toList := by decide
    have h1 : "1".toList.map Char.toLower = "1".toList := by decide
    unfold case_variant at hv
    rw [ht, hy, ho, h1] at hv
    rw [hcf, can_fail_of, hl, hb]
    simp only [ref_crm_str_to_boolean]
    rw [if_pos hv]
  · intro s hl hv
    have hf : "false".toList.map Char.toLower = "false".toList := by decide
    have hn : "no".toList.map Char.toLower = "no".toList := by decide
    have ho : "off".toList.map Char.toLower = "off".toList := by decide
    have h0 : "0".toList.map Char.toLower = "0".toList := by decide
    unfold case_variant at hv
    rw [hf, hn, ho, h0] at hv
    have hnot : ¬ (s.toList.map Char.toLower = "true".toList ∨
        s.toList.map Char.toLower = "yes".toList ∨ s.toList.map Char.toLower = "on".toList ∨
        s.toList.map Char.toLower = "1".toList) := by
      rcases hv with h | h | h | h <;> rw [h] <;> decide
    rw [hcf, can_fail_of, hl, hb]
    simp only [ref_crm_str_to_boolean]
    rw [if_neg hnot, if_pos hv]

/-- C16 at `example_can_fail_op`, whose `CRM_meta_can_fail` is "Yes". -/
theorem unpack_action_can_fail_witness :
    refLib.crm_str_to_boolean = ref_crm_str_to_boolean ∧
    ID example_can_fail_op = some "42" ∧
    ∃ a, unpack_action refLib 0 example_can_fail_op = some a ∧
      (g_hash_table_lookup (refLib.xml2list (copy_xml example_can_fail_op))
          "CRM_meta_can_fail" = none → a.can_fail = false) ∧
      (∀ s, g_hash_table_lookup (refLib.xml2list (copy_xml example_can_fail_op))
          "CRM_meta_can_fail" = some s →
        (case_variant s "true" ∨ case_variant s "yes" ∨ case_variant s "on" ∨
          case_variant s "1") → a.can_fail = true) ∧
      (∀ s, g_hash_table_lookup (refLib.xml2list (copy_xml example_can_fail_op))
          "CRM_meta_can_fail" = some s →
        (case_variant s "false" ∨ case_variant s "no" ∨ case_variant s "off" ∨
          case_variant s "0") → a.can_fail = false) :=
  ⟨rfl, by decide, unpack_action_can_fail refLib rfl 0 example_can_fail_op "42" (by decide)⟩

/-- The actions built from the children of a list of elements, in the words
of C3 and C19. -/
theorem children_actions_eq (L : Lib) (self : SynapseRef) (ts : List XmlNode) :
    (ts.flatMap fun t => t.children.filterMap (unpack_action L self)).map some =
      ((ts.flatMap XmlNode.children).filter fun a => (ID a).isSome).map
        (unpack_action L self) := by
  induction ts with
  | nil => rfl
  | cons t ts ih =>
    simp only [List.flatMap_cons, List.map_append, List.filter_append, ih, filterMap_map_some,
      unpack_action_isSome]

/-- Concatenating over the children of the elements of a list is
concatenating over the concatenation of their children. -/
theorem flatMap_children {β : Type} (f : XmlNode → List β) (l : List XmlNode) :
    (l.flatMap fun i => i.children.flatMap f) = (l.flatMap XmlNode.children).flatMap f := by
  induction l with
  | nil => rfl
  | cons i l ih => simp only [List.flatMap_cons, List.flatMap_append, ih]

/-- The actions of the second loop, in the words of C19. -/
theorem input_actions_eq (L : Lib) (self : SynapseRef) (xs : XmlNode) :
    (input_actions L self xs.children).map some =
      (id_bearing_input_elements xs).map (unpack_action L self) := by
  unfold input_actions id_bearing_input_elements crm_str_eq
  rw [flatMap_children, children_actions_eq]

/-- C19: for every synapse element whose parsed id is not negative,
`unpack_synapse` returns a synapse whose `inputs` are exactly the actions
`unpack_action` builds from the id-bearing grandchildren of the element's
`inputs` children, in document order; two synapse elements with the same
`inputs` children, wherever these sit among the other children, get the same
inputs; and the loop that builds the inputs leaves the graph, so its
`num_actions`, as it was: the counter grows by the number of actions only. -/
theorem unpack_synapse_inputs (L : Lib) (g : crm_graph_t) (xs : XmlNode)
    (h : 0 ≤ L.crm_parse_int (ID xs) none) :
    ∃ g1 s, unpack_synapse L g (some xs) = (g1, some s) ∧
      s.inputs.map some =
        (id_bearing_input_elements xs).map (unpack_action L g.synapses.length) ∧
      s.inputs.length = (id_bearing_input_elements xs).length ∧
      g1.num_actions = g.num_actions + (s.actions.length : Int) ∧
      (∀ st : SynState,
        (xs.children.foldl (inputs_step L g.synapses.length) st).1 = st.1) ∧
      (∀ ys : XmlNode, 0 ≤ L.crm_parse_int (ID ys) none →
        (ys.children.filter fun c => c.name == "inputs") =
          (xs.children.filter fun c => c.name == "inputs") →
        ∃ g2 s2, unpack_synapse L g (some ys) = (g2, some s2) ∧ s2.inputs = s.inputs) := by
  refine ⟨_, _, unpack_synapse_ok L g xs h, ?_, ?_, rfl, ?_, ?_⟩
  · exact input_actions_eq L g.synapses.length xs
  · have := congrArg List.length (input_actions_eq L g.synapses.length xs)
    simpa using this
  · intro st
    rw [inputs_fold]
  · intro ys hy hsame
    refine ⟨_, _, unpack_synapse_ok L g ys hy, ?_⟩
    show input_actions L g.synapses.length ys.children =
      input_actions L g.synapses.length xs.children
    unfold input_actions crm_str_eq
    rw [hsame]

/-- C19 at `example_synapse`, whose two `inputs` children sit before and
after its action sets, against the same element with the `inputs` children
moved to the end. -/
theorem unpack_synapse_inputs_witness :
    0 ≤ refLib.crm_parse_int (ID example_synapse) none ∧
    (0 ≤ refLib.crm_parse_int (ID example_synapse_reordered) none ∧
      (example_synapse_reordered.children.filter fun c => c.name == "inputs") =
        (example_synapse.children.filter fun c => c.name == "inputs")) ∧
    ∃ g1 s, unpack_synapse refLib (new_graph none) (some example_synapse) = (g1, some s) ∧
      s.inputs.map some =
        (id_bearing_input_elements example_synapse).map
          (unpack_action refLib (new_graph none).synapses.length) ∧
      s.inputs.length = (id_bearing_input_elements example_synapse).length ∧
      g1.num_actions = (new_graph none).num_actions + (s.actions.length : Int) ∧
      (∀ st : SynState,
        (example_synapse.children.foldl
          (inputs_step refLib (new_graph none).synapses.length) st).1 = st.1) ∧
      (∀ ys : XmlNode, 0 ≤ refLib.crm_parse_int (ID ys) none →
        (ys.children.filter fun c => c.name == "inputs") =
          (example_synapse.children.filter fun c => c.name == "inputs") →
        ∃ g2 s2, unpack_synapse refLib (new_graph none) (some ys) = (g2, some s2) ∧
          s2.inputs = s.inputs) :=
  ⟨by decide, ⟨by decide, rfl⟩,
    unpack_synapse_inputs refLib (new_graph none) example_synapse (by decide)⟩

/-- The attribute block of `unpack_graph` looks at the attributes of the root
only. -/
theorem graph_of_attrs_children (L : Lib) (g : crm_graph_t) (name : String)
    (attrs : List (String × String)) (cs ds : List XmlNode) (t c : String) :
    graph_of_attrs L g (XmlNode.mk name attrs cs) t c =
      graph_of_attrs L g (XmlNode.mk name attrs ds) t c := rfl

/-- C20: for every root with `transition_id` and `cluster-delay`, deleting a
child whose parsed id is negative, such as a rejected synapse element with
id-bearing actions in an action set, does not change the graph
`unpack_graph` builds: it is the same graph, with the same synapses,
`num_synapses` and `num_actions`. -/
theorem unpack_graph_delete_rejected (L : Lib) (name : String)
    (attrs : List (String × String)) (before after : List XmlNode) (c : XmlNode)
    (reference : Option String) (tid delay : String)
    (ht : crm_element_value (XmlNode.mk name attrs (before ++ c :: after)) "transition_id" =
      some tid)
    (hc : crm_element_value (XmlNode.mk name attrs (before ++ c :: after)) "cluster-delay" =
      some delay)
    (hn : c.name = "synapse") (hneg : L.crm_parse_int (ID c) none < 0) :
    ∃ G, unpack_graph L (some (XmlNode.mk name attrs (before ++ c :: after))) reference =
        some G ∧
      unpack_graph L (some (XmlNode.mk name attrs (before ++ after))) reference = some G := by
  have hacc : accepted L c = false := by
    have hlt : ¬ 0 ≤ L.crm_parse_int (ID c) none := by omega
    simp [accepted, crm_str_eq, hn, hlt]
  refine ⟨_, unpack_graph_present L _ reference tid delay ht hc, ?_⟩
  rw [unpack_graph_present L (XmlNode.mk name attrs (before ++ after)) reference tid delay ht hc]
  simp only [XmlNode.children, List.foldl_append, List.foldl_cons]
  rw [synapse_step_eq, hacc]
  rfl

/-- C20 at `example_document`, whose second child is a synapse element with
id -2 that holds an action with an id. -/
theorem unpack_graph_delete_rejected_witness :
    crm_element_value (XmlNode.mk "transition_graph"
      [("transition_id", "7"), ("cluster-delay", "30s")]
      ([example_synapse] ++ example_bad_synapse ::
        [XmlNode.mk "comment" [] [],
         XmlNode.mk "synapse" [("id", "0")]
           [XmlNode.mk "action_set" [] [XmlNode.mk "rsc_op" [("id", "60")] []]]]))
      "transition_id" = some "7" ∧
    crm_element_value (XmlNode.mk "transition_graph"
      [("transition_id", "7"), ("cluster-delay", "30s")]
      ([example_synapse] ++ example_bad_synapse ::
        [XmlNode.mk "comment" [] [],
         XmlNode.mk "synapse" [("id", "0")]
           [XmlNode.mk "action_set" [] [XmlNode.mk "rsc_op" [("id", "60")] []]]]))
      "cluster-delay" = some "30s" ∧
    example_bad_synapse.name = "synapse" ∧
    refLib.crm_parse_int (ID example_bad_synapse) none < 0 ∧
    ∃ G, unpack_graph refLib (some (XmlNode.mk "transition_graph"
        [("transition_id", "7"), ("cluster-delay", "30s")]
        ([example_synapse] ++ example_bad_synapse ::
          [XmlNode.mk "comment" [] [],
           XmlNode.mk "synapse" [("id", "0")]
             [XmlNode.mk "action_set" [] [XmlNode.mk "rsc_op" [("id", "60")] []]]]))) none =
        some G ∧
      unpack_graph refLib (some (XmlNode.mk "transition_graph"
        [("transition_id", "7"), ("cluster-delay", "30s")]
        ([example_synapse] ++
          [XmlNode.mk "comment" [] [],
           XmlNode.mk "synapse" [("id", "0")]
             [XmlNode.mk "action_set" [] [XmlNode.mk "rsc_op" [("id", "60")] []]]]))) none =
        some G :=
  ⟨by decide, by decide, by decide, by decide,
    unpack_graph_delete_rejected refLib "transition_graph"
      [("transition_id", "7"), ("cluster-delay", "30s")] [example_synapse]
      [XmlNode.mk "comment" [] [],
       XmlNode.mk "synapse" [("id", "0")]
         [XmlNode.mk "action_set" [] [XmlNode.mk "rsc_op" [("id", "60")] []]]]
      example_bad_synapse none "7" "30s" (by decide) (by decide) (by decide) (by decide)⟩

/-- C21 fails on the code: for an action built from a resource operation
element that has a resource child but no task attribute, and for one whose
resource child has no id, the three checks of `convert_graph_action` pass and
the next statement hands NULL to `strdup`; no event record is returned. -/
theorem convert_graph_action_null_strdup :
    preconditions_hold (unpack_action refLib 0 example_op_without_task) = true ∧
    is_fault (convert_graph_action refLib (some example_history)
      (unpack_action refLib 0 example_op_without_task) 0 0) = true ∧
    returns_event (convert_graph_action refLib (some example_history)
      (unpack_action refLib 0 example_op_without_task) 0 0) = false ∧
    preconditions_hold (unpack_action refLib 0 example_op_without_resource_id) = true ∧
    is_fault (convert_graph_action refLib (some example_history)
      (unpack_action refLib 0 example_op_without_resource_id) 0 0) = true ∧
    returns_event (convert_graph_action refLib (some example_history)
      (unpack_action refLib 0 example_op_without_resource_id) 0 0) = false := by
  decide

/-- The timers one drain loop of `destroy_synapse` cancels. -/
theorem destroy_action_list_eq (l : List crm_action_t) :
    destroy_action_list l = (l.filter has_live_timer).map timer_source_id := by
  induction l with
  | nil => rfl
  | cons a l ih =>
    unfold destroy_action_list
    rw [ih, List.filter_cons]
    unfold destroy_action has_live_timer timer_source_id
    cases ht : a.timer with
    | none => simp
    | some t =>
      by_cases h0 : t.source_id = 0
      · simp [h0]
      · simp [h0, timer_source_id, ht]

/-- The timers the loop of `destroy_graph` cancels. -/
theorem destroy_synapse_list_eq (l : List synapse_t) :
    destroy_synapse_list l =
      l.flatMap fun s =>
        ((s.actions ++ s.inputs).filter has_live_timer).map timer_source_id := by
  induction l with
  | nil => rfl
  | cons s l ih =>
    unfold destroy_synapse_list
    rw [ih, List.flatMap_cons]
    unfold destroy_synapse
    rw [destroy_action_list_eq, destroy_action_list_eq, List.filter_append, List.map_append]

/-- C22: with teardown returning the sequence of timer handles it cancels,
for every graph `destroy_graph` cancels exactly the timers of the actions, in
the actions and inputs of every synapse, whose timer is present with a source
id that is not 0, one call for each such action, synapse by synapse in order
and within a synapse the actions before the inputs; for an absent graph it
cancels nothing. -/
theorem destroy_graph_cancels (g : crm_graph_t) :
    destroy_graph (some g) = live_timer_handles g ∧
    (destroy_graph (some g)).length =
      ((g.synapses.map fun s =>
        ((s.actions ++ s.inputs).filter has_live_timer).length).sum : Nat) ∧
    destroy_graph none = [] := by
  have h : destroy_graph (some g) = live_timer_handles g := by
    unfold destroy_graph live_timer_handles
    exact destroy_synapse_list_eq g.synapses
  refine ⟨h, ?_, rfl⟩
  rw [h]
  unfold live_timer_handles
  generalize g.synapses = l
  induction l with
  | nil => rfl
  | cons s l ih =>
    rw [List.flatMap_cons, List.length_append, ih]
    simp

/-- A running maximum is at least its start. -/
theorem foldl_max_ge_start (vs : List Int) (c : Int) : c ≤ vs.foldl max c := by
  induction vs generalizing c with
  | nil => exact le_refl c
  | cons v vs ih => exact le_trans (le_max_left c v) (ih (max c v))

/-- A running maximum is at least every value it ran over. -/
theorem foldl_max_ge_mem (vs : List Int) (c : Int) : ∀ v ∈ vs, v ≤ vs.foldl max c := by
  induction vs generalizing c with
  | nil =>
    intro v hv
    cases hv
  | cons w vs ih =>
    intro v hv
    rw [List.foldl_cons]
    rcases List.mem_cons.1 hv with h | h
    · rw [h]
      exact le_trans (le_max_right c w) (foldl_max_ge_start vs (max c w))
    · exact ih (max c w) v h

/-- A running maximum over values that do not exceed its start is its
start. -/
theorem foldl_max_of_le (vs : List Int) (c : Int) (h : ∀ v ∈ vs, v ≤ c) :
    vs.foldl max c = c := by
  induction vs with
  | nil => rfl
  | cons w vs ih =>
    rw [List.foldl_cons, max_eq_left (h w (List.mem_cons_self w vs))]
    exact ih fun v hv => h v (List.mem_cons_of_mem w hv)

/-- C23: for every history for which `convert_graph_action` returns an
event, as long as every call-id is below the largest `int`, the call id of
the event is at least 1 and strictly greater than every call-id value read
from a child of the history; when none of these values is positive, as in a
history whose call-ids are all negative, the call id is 1. -/
theorem convert_call_id_bounds (L : Lib) (resource : Option XmlNode)
    (action : Option crm_action_t) (status rc : Int) (op : lrmd_event_data_t)
    (h : convert_graph_action L resource action status rc = Except.ok (some op))
    (hb : ∀ c ∈ xml_children resource, call_id_attr L c < INT_MAX) :
    1 ≤ op.call_id ∧
    (∀ c ∈ xml_children resource, ∀ v,
      L.crm_element_value_int c XML_LRM_ATTR_CALLID = some v → v < op.call_id) ∧
    ((∀ c ∈ xml_children resource, call_id_attr L c ≤ 0) → op.call_id = 1) := by
  have hv : ∀ v ∈ (xml_children resource).map (call_id_attr L), v < INT_MAX := by
    intro v hmem
    obtain ⟨c, hc, rfl⟩ := List.mem_map.1 hmem
    exact hb c hc
  obtain ⟨h1, h2⟩ := foldl_max_bounds _ 0 INT_MAX (by decide) hv
  have hcall := convert_call_id L resource action status rc op h
  have hwrap : int_wrap (((xml_children resource).map (call_id_attr L)).foldl max 0 + 1) =
      ((xml_children resource).map (call_id_attr L)).foldl max 0 + 1 := by
    apply int_wrap_of_range
    · unfold INT_MIN
      omega
    · unfold INT_MAX at h2 ⊢
      omega
  rw [hwrap] at hcall
  refine ⟨by omega, ?_, ?_⟩
  · intro c hc v hval
    have hmem : call_id_attr L c ∈ (xml_children resource).map (call_id_attr L) :=
      List.mem_map_of_mem _ hc
    have hle := foldl_max_ge_mem _ 0 _ hmem
    have hattr : call_id_attr L c = v := by
      unfold call_id_attr
      rw [hval]
    omega
  · intro hneg
    have hall : ∀ v ∈ (xml_children resource).map (call_id_attr L), v ≤ 0 := by
      intro v hmem
      obtain ⟨c, hc, rfl⟩ := List.mem_map.1 hmem
      exact hneg c hc
    rw [hcall, foldl_max_of_le _ 0 hall]
    rfl

/-- C23 at a history whose only entry has call-id -1: the call id is 1. -/
theorem convert_call_id_bounds_witness :
    convert_graph_action refLib (some example_history_negative) example_action 0 0 =
      Except.ok (some example_negative_event) ∧
    (∀ c ∈ xml_children (some example_history_negative), call_id_attr refLib c < INT_MAX) ∧
    (∀ c ∈ xml_children (some example_history_negative), call_id_attr refLib c ≤ 0) ∧
    (1 ≤ example_negative_event.call_id ∧
      (∀ c ∈ xml_children (some example_history_negative), ∀ v,
        refLib.crm_element_value_int c XML_LRM_ATTR_CALLID = some v →
          v < example_negative_event.call_id) ∧
      ((∀ c ∈ xml_children (some example_history_negative), call_id_attr refLib c ≤ 0) →
        example_negative_event.call_id = 1)) :=
  ⟨rfl, by decide, by decide,
    convert_call_id_bounds refLib (some example_history_negative) example_action 0 0
      example_negative_event rfl (by decide)⟩

end TransUnpack
